import Mathlib

/-!
Test discovery of the polarphp `lit` tool.

A shallow embedding of `devtools/lit/lib/Discovery.cpp` and of the functions
of `devtools/lit/lib/Utils.cpp` it calls, together with `execute_command`,
`string_endswith` and `check_file_have_ext`, followed by theorems about the suite resolver (`search_testsuit`), the
top-level lookup (`get_test_suite`), the local configuration resolver
(`get_local_config`), the test enumerator (`get_tests_in_suite`), the input
expander (`find_tests_for_inputs`) and the command executor.

Modelling decisions.

* A `std::filesystem::path` is the pair of "has a root directory" and the list
  of its file-name components, root first.  `/a/b` is `⟨true, ["a", "b"]⟩`, the
  filesystem root `/` is `⟨true, []⟩` and the empty path is `⟨false, []⟩`.
* The filesystem is read-only during discovery and is a record of the queries
  the code makes of it.
* A `std::shared_ptr<T>` is the address of the allocation together with the
  object stored there; the objects of this file are not mutated once their
  pointer has been handed out, and pointer comparison compares addresses.
* C++ exceptions and undefined behaviour are results `Except.error`.
* Recursion that the C++ code performs on ever shorter paths is written with a
  fuel argument; the entry points supply a fuel that is proved sufficient.
* A list file is the sequence of its bytes, one `Char` for each byte, read
  with the `getline` of the standard library into a buffer of 256 bytes.
* In `execute_command` the timer thread is joined before the flag is read, so
  the value read is determined by whether the thread was started; the response
  of the process is an argument.
-/

namespace Polar.Lit

/-! ## Paths and the filesystem -/

/-- A `std::filesystem::path`, as its root flag and its components. -/
structure FsPath where
  rooted : Bool
  comps : List String
deriving DecidableEq, Repr

/-- The path `fs::path::parent_path()`: the path without its last component;
the root and the empty path are their own parents. -/
def FsPath.parent_path (p : FsPath) : FsPath :=
  { rooted := p.rooted, comps := p.comps.dropLast }

/-- The name `fs::path::filename()`: the last component, empty for the root. -/
def FsPath.filename (p : FsPath) : String :=
  p.comps.getLast?.getD ""

/-- The path `p /= name` for a single file name `name`. -/
def FsPath.append_name (p : FsPath) (name : String) : FsPath :=
  { rooted := p.rooted, comps := p.comps ++ [name] }

/-- The path `p / q`: an absolute `q` replaces `p`, a relative one is appended. -/
def FsPath.join (p q : FsPath) : FsPath :=
  if q.rooted then q else { rooted := p.rooted, comps := p.comps ++ q.comps }

/-- The path `p` followed by the components `cs`. -/
def FsPath.extend (p : FsPath) (cs : List String) : FsPath :=
  { rooted := p.rooted, comps := p.comps ++ cs }

/-- The queries discovery makes of the filesystem. `canonical` is `none` where
`fs::canonical` throws; `directory_iterator` gives the file names of the
entries of a directory in iteration order; `read_file` gives the bytes of a
file that can be opened, one `Char` for each byte (a name that is not ASCII
appears as the bytes of its encoding), and `none` for a path that cannot. -/
structure FileSystem where
  fs_exists : FsPath → Bool
  is_directory : FsPath → Bool
  canonical : FsPath → Option FsPath
  directory_iterator : FsPath → List String
  current_path : FsPath
  read_file : FsPath → Option String := fun _ => none

/-! ## Configuration model -/

/-- The value held by a `std::any` parameter: nothing, a `StringMap`
(path to path), or a value of another type. -/
inductive AnyValue where
  | empty
  | string_map (m : List (FsPath × FsPath))
  | other
deriving DecidableEq, Repr

/-- The read-only services of `LitConfig` that discovery consumes. -/
structure LitConfig where
  siteConfigNames : List String
  configNames : List String
  localConfigNames : List String
  params : List (String × AnyValue)
  debug : Bool

/-- The settings of a `TestingConfig` that discovery reads. `testFormat` is the
identifier of the pluggable test format, when the configuration carries one. -/
structure TestingConfig where
  name : String
  testSourceRoot : Option FsPath
  testExecRoot : Option FsPath
  excludes : List String
  testFormat : Option Nat
deriving DecidableEq, Repr

/-- A `TestingConfigPointer`: the address and the object it points to. -/
structure TestingConfigPointer where
  addr : Nat
  obj : TestingConfig
deriving DecidableEq, Repr

/-- A `TestSuite`. -/
structure TestSuite where
  name : String
  sourceRoot : FsPath
  execRoot : FsPath
  config : TestingConfigPointer
deriving DecidableEq, Repr

/-- A `TestSuitePointer`: the address and the object it points to. -/
structure TestSuitePointer where
  addr : Nat
  obj : TestSuite
deriving DecidableEq, Repr

/-- Modelled from the spec: `TestSuite::getSourcePath` (declared in `Test.h`,
which is not among the sources) gives the on-disk source directory of a
path-in-suite, the source root followed by the components. -/
def TestSuite.getSourcePath (ts : TestSuite) (components : List String) : FsPath :=
  ts.sourceRoot.extend components

/-- Modelled from the spec: `TestSuite::getExecPath` (declared in `Test.h`,
which is not among the sources) gives the exec-rooted path of a path-in-suite,
the exec root followed by the components. -/
def TestSuite.getExecPath (ts : TestSuite) (components : List String) : FsPath :=
  ts.execRoot.extend components

/-- A `Test`: owning suite, path inside the suite, local configuration. -/
structure Test where
  suite : TestSuitePointer
  pathInSuite : List String
  config : TestingConfigPointer
deriving DecidableEq, Repr

/-- The type `TestList`. -/
abbrev TestList := List Test

/-- The type `TestSuitSearchResult` of `Discovery.h`. -/
abbrev TestSuitSearchResult := Option TestSuitePointer × List String

/-- What the code can raise instead of returning. -/
inductive Failure where
  | out_of_range
  | bad_any_cast
  | filesystem_error
  | bad_optional_access
  | undefined_behavior
  | fuel
deriving DecidableEq, Repr

/-- Messages passed to `LitConfig::note` and `LitConfig::warning`. -/
inductive Message where
  | loading_suite_config (cfgPath : FsPath)
  | loading_local_config (cfgPath : FsPath)
  | unable_to_find_test_suite (path : FsPath)
  | resolved_input (path : FsPath) (suite : String)
  | contained_no_tests (path : FsPath)
deriving DecidableEq, Repr

/-- The mutable part of a discovery run: the next free address, the messages
and error counter of the `LitConfig`, and the suite-resolution cache
(a `std::map` from canonical path to search result). -/
structure State where
  nextAddr : Nat
  notes : List Message
  warnings : List Message
  numErrors : Nat
  cache : List (FsPath × TestSuitSearchResult)
deriving DecidableEq, Repr

/-- Everything discovery is run against. `fromDefaults` is the configuration
`TestingConfig::fromDefaults` builds; `loadFromPath` is the external loader:
it gives the receiver after the load and the number of errors the load
reported to the `LitConfig`; `getTestsInDirectory` is the listing of the
pluggable test formats. -/
structure Env where
  fs : FileSystem
  litConfig : LitConfig
  fromDefaults : TestingConfig
  loadFromPath : FsPath → TestingConfig → TestingConfig × Nat
  getTestsInDirectory : Nat → TestSuitePointer → List String → TestingConfigPointer → TestList

instance instDecidableEqExcept {ε α : Type} [DecidableEq ε] [DecidableEq α] :
    DecidableEq (Except ε α) := fun a b =>
  match a, b with
  | .ok x, .ok y => if h : x = y then isTrue (by rw [h]) else isFalse (fun e => h (by cases e; rfl))
  | .error x, .error y =>
    if h : x = y then isTrue (by rw [h]) else isFalse (fun e => h (by cases e; rfl))
  | .ok _, .error _ => isFalse (fun e => by cases e)
  | .error _, .ok _ => isFalse (fun e => by cases e)

/-! ## The cache -/

/-- The lookup `cache.find(realPath)`. -/
def cache_find (cache : List (FsPath × TestSuitSearchResult)) (realPath : FsPath) :
    Option TestSuitSearchResult :=
  match cache with
  | [] => none
  | (k, v) :: rest => if k = realPath then some v else cache_find rest realPath

/-- The assignment `cache[realPath] = r`: the entry of `realPath` is replaced
when there is one and added otherwise. -/
def cache_insert (cache : List (FsPath × TestSuitSearchResult)) (realPath : FsPath)
    (r : TestSuitSearchResult) : List (FsPath × TestSuitSearchResult) :=
  match cache with
  | [] => [(realPath, r)]
  | (k, v) :: rest =>
    if k = realPath then (k, r) :: rest else (k, v) :: cache_insert rest realPath r

/-! ## Locating configuration files -/

/-- The function `choose_config_file_from_dir`: the first name whose file
exists in `dir`. -/
def choose_config_file_from_dir (fs : FileSystem) (dir : FsPath) :
    List String → Option FsPath
  | [] => none
  | name :: rest =>
    if fs.fs_exists (dir.append_name name) then some (dir.append_name name)
    else choose_config_file_from_dir fs dir rest

/-- The function `dir_contains_test_suite`: a site configuration, else a suite
configuration. -/
def dir_contains_test_suite (fs : FileSystem) (path : FsPath) (litConfig : LitConfig) :
    Option FsPath :=
  match choose_config_file_from_dir fs path litConfig.siteConfigNames with
  | some cfgPath => some cfgPath
  | none => choose_config_file_from_dir fs path litConfig.configNames

/-- The call `litConfig->note(msg)` under `if (litConfig->isDebug())`. -/
def debug_note (litConfig : LitConfig) (msg : Message) (s : State) : State :=
  if litConfig.debug then { s with notes := s.notes ++ [msg] } else s

/-- The lookup `litConfig->getParams().at(key)`. -/
def params_at (params : List (String × AnyValue)) (key : String) : Except Failure AnyValue :=
  match params.lookup key with
  | some v => .ok v
  | none => .error .out_of_range

/-- The lookup of a path in a `StringMap`. -/
def string_map_find (m : List (FsPath × FsPath)) (key : FsPath) : Option FsPath :=
  match m with
  | [] => none
  | (k, v) :: rest => if k = key then some v else string_map_find rest key

/-- The path of the configuration file to load, lines 82 to 90 of
`Discovery.cpp`: `cfgPath` starts as the empty string and is assigned only
when the `config_map` parameter holds a value. -/
def resolve_config_path (fs : FileSystem) (configMapAny : AnyValue) (cfgPathOpt : FsPath) :
    Except Failure FsPath :=
  match configMapAny with
  | .empty => .ok { rooted := false, comps := [] }
  | .other =>
    match fs.canonical cfgPathOpt with
    | none => .error .filesystem_error
    | some _ => .error .bad_any_cast
  | .string_map configMap =>
    match fs.canonical cfgPathOpt with
    | none => .error .filesystem_error
    | some cfgPath =>
      match string_map_find configMap cfgPath with
      | some mapped => .ok mapped
      | none => .ok cfgPath

/-! ## The suite resolver -/

/-- The function `do_search_testsuit`; `search` is the function
`search_testsuit` it calls on the parent directory. -/
def do_search_testsuit (env : Env)
    (search : FsPath → State → Except Failure (TestSuitSearchResult × State))
    (path : FsPath) (s : State) : Except Failure (TestSuitSearchResult × State) :=
  match dir_contains_test_suite env.fs path env.litConfig with
  | none =>
    let parent := path.parent_path
    let base := path.filename
    if parent = path then .ok ((none, []), s)
    else
      match search parent s with
      | .error e => .error e
      | .ok (temp, s1) => .ok ((temp.1, temp.2 ++ [base]), s1)
  | some cfgPathOpt =>
    match params_at env.litConfig.params "config_map" with
    | .error e => .error e
    | .ok configMapAny =>
      match resolve_config_path env.fs configMapAny cfgPathOpt with
      | .error e => .error e
      | .ok cfgPath =>
        let s1 := debug_note env.litConfig (.loading_suite_config cfgPath) s
        let loaded := env.loadFromPath cfgPath env.fromDefaults
        let testingCfg : TestingConfigPointer := { addr := s1.nextAddr, obj := loaded.1 }
        let sourceRoot :=
          match loaded.1.testSourceRoot with
          | some r => r
          | none => path
        let execRoot :=
          match loaded.1.testExecRoot with
          | some r => r
          | none => path
        let suite : TestSuitePointer :=
          { addr := s1.nextAddr + 1,
            obj := { name := loaded.1.name, sourceRoot := sourceRoot, execRoot := execRoot,
                     config := testingCfg } }
        .ok ((some suite, []),
          { s1 with nextAddr := s1.nextAddr + 2, numErrors := s1.numErrors + loaded.2 })

/-- The function `search_testsuit`, with the depth of recursion bounded by the
first argument. -/
def search_testsuit_fuel (env : Env) :
    Nat → FsPath → State → Except Failure (TestSuitSearchResult × State)
  | 0, _, _ => .error .fuel
  | fuel + 1, path, s =>
    match env.fs.canonical path with
    | none => .error .filesystem_error
    | some realPath =>
      let filled : Except Failure State :=
        match cache_find s.cache realPath with
        | none =>
          match do_search_testsuit env (search_testsuit_fuel env fuel) path s with
          | .error e => .error e
          | .ok (r, s1) => .ok { s1 with cache := cache_insert s1.cache realPath r }
        | some _ => .ok s
      match filled with
      | .error e => .error e
      | .ok s2 =>
        match cache_find s2.cache realPath with
        | some r => .ok (r, s2)
        | none => .error .out_of_range

/-- The function `search_testsuit`: each recursive call is on the parent, so
one more step than the path has components is enough. -/
def search_testsuit (env : Env) (path : FsPath) (s : State) :
    Except Failure (TestSuitSearchResult × State) :=
  search_testsuit_fuel env (path.comps.length + 1) path s

/-! ## Top-level suite lookup -/

/-- The loop `while (!fs::is_directory(currentDir))` of `get_test_suite`:
`none` when the walk reaches a path that is its own parent, otherwise the
directory found and the base names stripped, in the order they were pushed. -/
def skip_files (fs : FileSystem) :
    Nat → FsPath → List String → Except Failure (Option (FsPath × List String))
  | 0, _, _ => .error .fuel
  | fuel + 1, currentDir, components =>
    if fs.is_directory currentDir then .ok (some (currentDir, components))
    else
      let parent := currentDir.parent_path
      let base := currentDir.filename
      if parent = currentDir then .ok none
      else skip_files fs fuel parent (components ++ [base])

/-- The function `get_test_suite`. -/
def get_test_suite (env : Env) (item : FsPath) (s : State) :
    Except Failure (TestSuitSearchResult × State) :=
  match env.fs.canonical (env.fs.current_path.join item) with
  | none => .error .filesystem_error
  | some item1 =>
    match skip_files env.fs (item1.comps.length + 1) item1 [] with
    | .error e => .error e
    | .ok none => .ok ((none, []), s)
    | .ok (some (currentDir, components)) =>
      match search_testsuit env currentDir s with
      | .error e => .error e
      | .ok (temp, s1) => .ok ((temp.1, temp.2 ++ components.reverse), s1)

/-! ## Local configuration -/

/-- The function `get_local_config`, with the depth of recursion bounded by the
first argument. -/
def get_local_config_fuel (env : Env) (testSuite : TestSuitePointer) :
    Nat → List String → State → Except Failure (TestingConfigPointer × State)
  | 0, _, _ => .error .fuel
  | fuel + 1, pathInSuite, s =>
    let parentResult : Except Failure (TestingConfigPointer × State) :=
      if pathInSuite.isEmpty then .ok (testSuite.obj.config, s)
      else get_local_config_fuel env testSuite fuel pathInSuite.dropLast s
    match parentResult with
    | .error e => .error e
    | .ok (parent, s1) =>
      let sourcePath := testSuite.obj.getSourcePath pathInSuite
      match choose_config_file_from_dir env.fs sourcePath env.litConfig.localConfigNames with
      | none => .ok (parent, s1)
      | some cfgPath =>
        let s2 := debug_note env.litConfig (.loading_local_config cfgPath) s1
        let loaded := env.loadFromPath cfgPath parent.obj
        .ok ({ addr := s2.nextAddr, obj := loaded.1 },
          { s2 with nextAddr := s2.nextAddr + 1, numErrors := s2.numErrors + loaded.2 })

/-- The function `get_local_config`: each recursive call drops the last
component, so one more step than the path has components is enough. -/
def get_local_config (env : Env) (testSuite : TestSuitePointer) (pathInSuite : List String)
    (s : State) : Except Failure (TestingConfigPointer × State) :=
  get_local_config_fuel env testSuite (pathInSuite.length + 1) pathInSuite s

/-! ## The test enumerator -/

/-- The test of lines 212 to 215: the entry is named `Output`, `.svn` or
`.git`, or is in the exclusion set of the local configuration. -/
def skipped_by_name (lc : TestingConfigPointer) (filename : String) : Bool :=
  filename = "Output" || filename = ".svn" || filename = ".git" ||
    lc.obj.excludes.contains filename

/-- The nested-suite lookup of lines 226 to 239 for one child: on the
exec-rooted path when it contains a configuration file, else on the
source-rooted path when that one does, else nothing. -/
def nested_suite_lookup (env : Env) (fileExecPath path : FsPath) (s : State) :
    Except Failure ((Option TestSuitePointer × List String) × State) :=
  if (dir_contains_test_suite env.fs fileExecPath env.litConfig).isSome then
    get_test_suite env fileExecPath s
  else if (dir_contains_test_suite env.fs path env.litConfig).isSome then
    get_test_suite env path s
  else .ok ((none, []), s)

/-- The loop `for (auto& p: fs::directory_iterator(sourcePath))` of
`get_tests_in_suite` over the entries still to visit; `recurse` is
`get_tests_in_suite` itself. Leaving the loop flows off the end of a function
that must return a value. -/
def get_tests_in_suite_loop (env : Env)
    (recurse : TestSuitePointer → List String → State → Except Failure (TestList × State))
    (testSuite : TestSuitePointer) (pathInSuite : List String) (lc : TestingConfigPointer)
    (sourcePath : FsPath) : List String → State → Except Failure (TestList × State)
  | [], _ => .error .undefined_behavior
  | filename :: rest, s =>
    let path := sourcePath.append_name filename
    if skipped_by_name lc filename then
      get_tests_in_suite_loop env recurse testSuite pathInSuite lc sourcePath rest s
    else if !env.fs.is_directory path then
      get_tests_in_suite_loop env recurse testSuite pathInSuite lc sourcePath rest s
    else
      let subPath := pathInSuite ++ [filename]
      let fileExecPath := testSuite.obj.getExecPath subPath
      match nested_suite_lookup env fileExecPath path s with
      | .error e => .error e
      | .ok ((subTs, subpathInSuite), s1) =>
        match subTs with
        | none => .error .bad_optional_access
        | some sub =>
          if sub.addr = testSuite.addr then
            get_tests_in_suite_loop env recurse testSuite pathInSuite lc sourcePath rest s1
          else if subTs.isSome then recurse sub subpathInSuite s1
          else recurse testSuite subPath s1

/-- The function `get_tests_in_suite`, with the depth of recursion bounded by
the first argument. -/
def get_tests_in_suite (env : Env) :
    Nat → TestSuitePointer → List String → State → Except Failure (TestList × State)
  | 0, _, _, _ => .error .fuel
  | fuel + 1, testSuite, pathInSuite, s =>
    let sourcePath := testSuite.obj.getSourcePath pathInSuite
    if !env.fs.fs_exists sourcePath then .ok ([], s)
    else if !env.fs.is_directory sourcePath then
      if pathInSuite.isEmpty then .error .undefined_behavior
      else
        let temp := pathInSuite.dropLast
        match get_local_config env testSuite temp s with
        | .error e => .error e
        | .ok (lc, s1) => .ok ([{ suite := testSuite, pathInSuite := temp, config := lc }], s1)
    else
      match get_local_config env testSuite pathInSuite s with
      | .error e => .error e
      | .ok (lc, s1) =>
        match lc.obj.testFormat with
        | some format =>
          .ok (env.getTestsInDirectory format testSuite pathInSuite lc, s1)
        | none =>
          get_tests_in_suite_loop env (get_tests_in_suite env fuel) testSuite pathInSuite lc
            sourcePath (env.fs.directory_iterator sourcePath) s1

/-! ## Strings -/

/-- Whether the characters `searchStr` stand at the start of `str`. -/
def chars_start_with : List Char → List Char → Bool
  | _, [] => true
  | [], _ :: _ => false
  | c :: cs, d :: ds => c = d && chars_start_with cs ds

/-- The position `std::string::find(searchStr)` gives: the index of the first
occurrence of `searchStr`, `none` for `npos`. -/
def string_find : List Char → List Char → Option Nat
  | [], searchStr => if searchStr.isEmpty then some 0 else none
  | c :: cs, searchStr =>
    if chars_start_with (c :: cs) searchStr then some 0
    else (string_find cs searchStr).map (· + 1)

/-- The function `string_startswith` of `Utils.cpp`. -/
def string_startswith (str searchStr : String) : Bool :=
  if str.data.length < searchStr.data.length then false
  else if searchStr.data.isEmpty then true
  else string_find str.data searchStr.data = some 0

/-- The function `string_endswith` of `Utils.cpp`: the position of the first
occurrence of `searchStr` is compared with the position a suffix starts at. -/
def string_endswith (str searchStr : String) : Bool :=
  let strSize := str.data.length
  let searchStrSize := searchStr.data.length
  if strSize < searchStrSize then false
  else if searchStr.data.isEmpty then true
  else decide (some (strSize - searchStrSize) = string_find str.data searchStr.data)

/-- The function `check_file_have_ext` of `Utils.cpp`, over the suffixes in the
order the set gives them. -/
def check_file_have_ext (filename : String) : List String → Bool
  | [] => false
  | suffix :: rest =>
    if string_endswith filename suffix then true else check_file_have_ext filename rest

/-- The components of a path written with `/` as separator; `cur` holds the
characters of the component being read. Empty components are dropped. -/
def split_components : List Char → List Char → List String
  | [], cur => if cur.isEmpty then [] else [String.mk cur]
  | c :: rest, cur =>
    if c = '/' then
      if cur.isEmpty then split_components rest []
      else String.mk cur :: split_components rest []
    else split_components rest (cur ++ [c])

/-- The `fs::path` a `std::string` is converted to. -/
def FsPath.of_string (str : String) : FsPath :=
  { rooted := str.data.head? = some '/', comps := split_components str.data [] }

/-- The call `std::istream::getline(lineBuf, count)` on the bytes not yet
read, `stored` being the bytes already put in the buffer; each `Char` of the
lists is one byte of the file, so the lengths are counts of bytes. The conditions
are tested in the order of the standard: end of file, then the delimiter (which
is extracted and not stored), then a full buffer of `count - 1` characters,
which sets `failbit`. The result is `none` when the call fails (`failbit`: the
buffer is full, or nothing at all was extracted), and otherwise the characters
stored and the characters left to read. -/
def getline (count : Nat) : List Char → List Char → Option (List Char × List Char)
  | [], stored => if stored.isEmpty then none else some (stored, [])
  | c :: rest, stored =>
    if c = Char.ofNat 10 then some (stored, rest)
    else if stored.length + 1 < count then getline count rest (stored ++ [c])
    else none

/-- The loop `while (f.getline(lineBuf, sizeof(lineBuf)))` of
`find_tests_for_inputs`, with `char lineBuf[256]`: every non-empty line read is
pushed on `actualInputs`; `std::string line(lineBuf)` stops at a null
character. The first argument bounds the number of iterations. -/
def read_list_file : Nat → List Char → List String → Except Failure (List String)
  | 0, _, _ => .error .fuel
  | fuel + 1, input, actualInputs =>
    match getline 256 input [] with
    | none => .ok actualInputs
    | some (lineBuf, rest) =>
      let line := lineBuf.takeWhile (fun c => c ≠ Char.ofNat 0)
      if !line.isEmpty then read_list_file fuel rest (actualInputs ++ [String.mk line])
      else read_list_file fuel rest actualInputs

/-- The first loop of `find_tests_for_inputs`, lines 278 to 292: an input that
starts with `@` names a list file whose lines become inputs, any other input
is an input itself. A file that cannot be opened gives no line. -/
def expand_inputs (fs : FileSystem) : List String → List String → Except Failure (List String)
  | [], actualInputs => .ok actualInputs
  | input :: rest, actualInputs =>
    if string_startswith input "@" then
      let content : List Char :=
        match fs.read_file (FsPath.of_string (String.mk (input.data.drop 1))) with
        | some text => text.data
        | none => []
      match read_list_file (content.length + 1) content actualInputs with
      | .error e => .error e
      | .ok actualInputs1 => expand_inputs fs rest actualInputs1
    else expand_inputs fs rest (actualInputs ++ [input])

/-! ## The input expander -/

/-- The function `get_tests`; the first component of the result is the null
pointer of the value-initialised tuple when no suite is found. The second
argument bounds the recursion depth of `get_tests_in_suite`. -/
def get_tests (env : Env) (fuel : Nat) (path : FsPath) (s : State) :
    Except Failure ((Option TestSuitePointer × TestList) × State) :=
  match get_test_suite env path s with
  | .error e => .error e
  | .ok ((testSuite, subpathInSuite), s1) =>
    match testSuite with
    | none =>
      .ok ((none, []), { s1 with warnings := s1.warnings ++ [.unable_to_find_test_suite path] })
    | some ts =>
      let s2 := debug_note env.litConfig (.resolved_input path ts.obj.name) s1
      match get_tests_in_suite env fuel ts subpathInSuite s2 with
      | .error e => .error e
      | .ok (tests, s3) => .ok ((some ts, tests), s3)

/-- The second loop of `find_tests_for_inputs`, lines 295 to 301, over the
inputs still to process; `tests` is the list built so far. -/
def find_tests_loop (env : Env) (fuel : Nat) :
    List String → List (Option TestSuitePointer × TestList) → State →
      Except Failure (List (Option TestSuitePointer × TestList) × State)
  | [], tests, s => .ok (tests, s)
  | input :: rest, tests, s =>
    let prevLength := tests.length
    match get_tests env fuel (FsPath.of_string input) s with
    | .error e => .error e
    | .ok (r, s1) =>
      let tests1 := tests ++ [r]
      let s2 :=
        if prevLength = tests1.length then
          { s1 with warnings := s1.warnings ++ [.contained_no_tests (FsPath.of_string input)] }
        else s1
      find_tests_loop env fuel rest tests1 s2

/-- How a call of `find_tests_for_inputs` ends: it returns, it ends the
process with `exit(status)`, or an exception leaves it. -/
inductive DiscoveryOutcome where
  | returned (tests : List (Option TestSuitePointer × TestList)) (s : State)
  | exited (status : Nat) (s : State)
  | raised (e : Failure)
deriving DecidableEq, Repr

/-- The function `find_tests_for_inputs`. The cache is a local variable of the
call and starts empty. -/
def find_tests_for_inputs (env : Env) (fuel : Nat) (inputs : List String) (s : State) :
    DiscoveryOutcome :=
  match expand_inputs env.fs inputs [] with
  | .error e => .raised e
  | .ok actualInputs =>
    match find_tests_loop env fuel actualInputs [] { s with cache := [] } with
    | .error e => .raised e
    | .ok (tests, s1) =>
      if s1.numErrors > 0 then .exited 2 s1
      else .returned tests s1

/-! ## The command executor -/

/-- The signal number `SIGINT` of `<csignal>`. -/
def SIGINT : Int := 2

/-- How a call of `execute_command` ends: it returns the response, or it throws
`ExecuteCommandTimeoutException` with the output, the error output and the exit
code, or `std::runtime_error` for an interrupt, or the `std::system_error` of
`std::thread`. -/
inductive CommandOutcome where
  | returned (exitCode : Int) (out err : String)
  | timeout_exception (timeout : Int) (out err : String) (exitCode : Int)
  | interrupt_error
  | system_error
deriving DecidableEq, Repr

/-- Lines 49 to 60 of `Utils.cpp`: whether `thread` is joinable after the `try`
statement, and `none` when an exception leaves it. The timer is started only
when `timeout > 0`; when its start throws (`threadStarts` is false), the
handler joins a thread that was never assigned, which throws in turn. -/
def start_timer (timeout : Int) (threadStarts : Bool) : Option Bool :=
  if timeout > 0 then
    if threadStarts then some true else none
  else some false

/-- The value of `hitTimeout` once `thread.join()` of line 62 has returned:
`none` when `join` throws because the thread is not joinable. A thread that
has been joined has run its function to the end, and the last statement of
that function stores `true`. -/
def flag_after_join (joinable : Bool) : Option Bool :=
  if joinable then some true else none

/-- Lines 63 to 73 of `Utils.cpp`, for the value of `hitTimeout` read at line
66. -/
def report_response (hitTimeout : Bool) (timeout : Int) (response : Int × String × String) :
    CommandOutcome :=
  if hitTimeout then .timeout_exception timeout response.2.1 response.2.2 response.1
  else if response.1 = SIGINT then .interrupt_error
  else .returned response.1 response.2.1 response.2.2

/-- The function `execute_command`; `response` is what `run_program`
returns for the command. -/
def execute_command (timeout : Int) (threadStarts : Bool) (response : Int × String × String) :
    CommandOutcome :=
  match start_timer timeout threadStarts with
  | none => .system_error
  | some joinable =>
    match flag_after_join joinable with
    | none => .system_error
    | some hitTimeout => report_response hitTimeout timeout response

/-! ## The walk of the specification for local configurations -/

/-- One level of the walk the specification describes for `getLocalConfig`:
when the source directory of the prefix `pre` contains a local configuration
file (first existing candidate name), the current configuration is replaced by
a copy of it with that file loaded; otherwise it is kept as it is. -/
def local_config_level (env : Env) (testSuite : TestSuitePointer)
    (current : TestingConfigPointer × State) (pre : List String) :
    TestingConfigPointer × State :=
  match choose_config_file_from_dir env.fs (testSuite.obj.getSourcePath pre)
      env.litConfig.localConfigNames with
  | none => current
  | some cfgPath =>
    let s2 := debug_note env.litConfig (.loading_local_config cfgPath) current.2
    let loaded := env.loadFromPath cfgPath current.1.obj
    ({ addr := s2.nextAddr, obj := loaded.1 },
      { s2 with nextAddr := s2.nextAddr + 1, numErrors := s2.numErrors + loaded.2 })

/-- The walk of the specification: over the prefixes of the path-in-suite from
the empty one to the path itself, starting from the root configuration of the
suite. -/
def local_config_walk (env : Env) (testSuite : TestSuitePointer) (pathInSuite : List String)
    (s : State) : TestingConfigPointer × State :=
  pathInSuite.inits.foldl (local_config_level env testSuite) (testSuite.obj.config, s)

/-! ## Definitions used to state the claims on the enumerator -/

/-- A child the fallback directory walk is said to leave out: it is named
`Output`, `.svn` or `.git`, or its base name is in the exclusion set of the
local configuration, or it is not a directory. -/
def removed_child (env : Env) (lc : TestingConfigPointer) (sourcePath : FsPath)
    (filename : String) : Bool :=
  decide (filename = "Output" ∨ filename = ".svn" ∨ filename = ".git" ∨
    filename ∈ lc.obj.excludes) || !env.fs.is_directory (sourcePath.append_name filename)

/-- The environment `env` with another directory listing. -/
def with_listing (env : Env) (listing : FsPath → List String) : Env :=
  { env with fs := { env.fs with directory_iterator := listing } }

/-- The entries the second loop of `find_tests_for_inputs` adds for `inputs`
from the state `s`: one entry per input, in input order, each what `get_tests`
returns for its input in the state the inputs before it have left; `s1` is the
state after the last input. -/
def entries_match (env : Env) (fuel : Nat) :
    List String → State → List (Option TestSuitePointer × TestList) → State → Prop
  | [], s, [], s1 => s1 = s
  | input :: rest, s, r :: rs, s1 =>
    ∃ s2, get_tests env fuel (FsPath.of_string input) s = .ok (r, s2) ∧
      entries_match env fuel rest s2 rs s1
  | [], _, _ :: _, _ => False
  | _ :: _, _, [], _ => False

/-- The state in which a call of `find_tests_for_inputs` returns or exits. -/
def DiscoveryOutcome.final_state : DiscoveryOutcome → Option State
  | .returned _ s => some s
  | .exited _ s => some s
  | .raised _ => none

/-- The list a call of `find_tests_for_inputs` returns. -/
def DiscoveryOutcome.result : DiscoveryOutcome → Option (List (Option TestSuitePointer × TestList))
  | .returned tests _ => some tests
  | .exited _ _ => none
  | .raised _ => none

/-- The exit status with which a call of `find_tests_for_inputs` ends the
process. -/
def DiscoveryOutcome.exit_status : DiscoveryOutcome → Option Nat
  | .returned _ _ => none
  | .exited status _ => some status
  | .raised _ => none

/-! ## Fixtures -/

/-- A filesystem without symbolic links, given by its directories and its
regular files: every existing path is canonical, and a directory lists the
base names of the directories and then of the files it is the parent of. -/
def plain_fs (dirs files : List FsPath) : FileSystem :=
  { fs_exists := fun p => dirs.contains p || files.contains p
    is_directory := fun p => dirs.contains p
    canonical := fun p => if dirs.contains p || files.contains p then some p else none
    directory_iterator := fun d =>
      ((dirs ++ files).filter (fun p => decide (p.parent_path = d ∧ p.comps ≠ []))).map
        FsPath.filename
    current_path := { rooted := true, comps := [] } }

/-- An absolute path from its components. -/
def abs_path (cs : List String) : FsPath := { rooted := true, comps := cs }

/-- The default names of the configuration files, with an empty `config_map`. -/
def demo_lit_config : LitConfig :=
  { siteConfigNames := ["lit.site.cfg"]
    configNames := ["lit.cfg"]
    localConfigNames := ["lit.local.cfg"]
    params := [("config_map", .string_map [])]
    debug := false }

/-- The configuration built by `fromDefaults` in the fixtures. -/
def demo_defaults : TestingConfig :=
  { name := "", testSourceRoot := none, testExecRoot := none, excludes := [], testFormat := none }

/-- A loader for the fixtures: a suite configuration is named after the
directory of its file, a local configuration file excludes `skipme` and
selects the test format `0`, and no load reports an error. -/
def demo_load (cfgPath : FsPath) (cfg : TestingConfig) : TestingConfig × Nat :=
  if cfgPath.filename = "lit.local.cfg" then
    ({ cfg with excludes := "skipme" :: cfg.excludes, testFormat := some 0 }, 0)
  else ({ cfg with name := cfgPath.parent_path.filename }, 0)

/-- The test formats of the fixtures: each lists the one test `t1.txt` in the
directory it is asked about. -/
def demo_format (_format : Nat) (testSuite : TestSuitePointer) (pathInSuite : List String)
    (lc : TestingConfigPointer) : TestList :=
  [{ suite := testSuite, pathInSuite := pathInSuite ++ ["t1.txt"], config := lc }]

/-- The environment of the fixtures over the given directories and files. -/
def demo_env (dirs files : List FsPath) : Env :=
  { fs := plain_fs dirs files
    litConfig := demo_lit_config
    fromDefaults := demo_defaults
    loadFromPath := demo_load
    getTestsInDirectory := demo_format }

/-- The state at the start of a discovery run. -/
def init_state : State :=
  { nextAddr := 0, notes := [], warnings := [], numErrors := 0, cache := [] }

/-- The suite the fixtures create for a configuration file found in `root`,
when the next free address is `addr`: the configuration is allocated first
and the suite after it. -/
def demo_suite_at (addr : Nat) (name : String) (root : FsPath) : TestSuitePointer :=
  { addr := addr + 1
    obj :=
      { name := name, sourceRoot := root, execRoot := root
        config := { addr := addr, obj := { demo_defaults with name := name } } } }

/-- A suite root `/r` holding `lit.cfg`, with the directories `a` and `a/b`
below it, neither with a configuration file. -/
def nested_dirs_env : Env :=
  demo_env [abs_path [], abs_path ["r"], abs_path ["r", "a"], abs_path ["r", "a", "b"]]
    [abs_path ["r", "lit.cfg"]]

/-- The state after resolving `/r` in `nested_dirs_env` from `init_state`. -/
def nested_dirs_state : State :=
  { nextAddr := 2, notes := [], warnings := [], numErrors := 0
    cache := [(abs_path ["r"], (some (demo_suite_at 0 "r" (abs_path ["r"])), []))] }

/-- A directory `/a` with no configuration file in it or above it. -/
def no_config_env : Env :=
  demo_env [abs_path [], abs_path ["a"]] []

/-- A suite root `/s` with a local configuration file in `/s/a/b` and in no
other directory from `/s` down to `/s/a/b/c`. -/
def local_config_env : Env :=
  demo_env
    [abs_path [], abs_path ["s"], abs_path ["s", "a"], abs_path ["s", "a", "b"],
      abs_path ["s", "a", "b", "c"]]
    [abs_path ["s", "lit.cfg"], abs_path ["s", "a", "b", "lit.local.cfg"]]

/-- The state once one suite has been resolved from `init_state` with the
result `r` stored for `root`. -/
def resolved_state (root : FsPath) (r : TestSuitSearchResult) : State :=
  { nextAddr := 2, notes := [], warnings := [], numErrors := 0, cache := [(root, r)] }

/-- A suite root `/root` whose only child directory `sub` has no
configuration file and holds the file `t1.txt`. -/
def single_test_env : Env :=
  demo_env [abs_path [], abs_path ["root"], abs_path ["root", "sub"]]
    [abs_path ["root", "lit.cfg"], abs_path ["root", "sub", "t1.txt"]]

/-- The suite of `/root` in the fixtures. -/
def root_suite : TestSuitePointer := demo_suite_at 0 "root" (abs_path ["root"])

/-- The state after `get_test_suite` on `/root` from `init_state`. -/
def root_state : State := resolved_state (abs_path ["root"]) (some root_suite, [])

/-- As `single_test_env`, with a local configuration file in `sub` that
selects a test format. -/
def format_dir_env : Env :=
  demo_env [abs_path [], abs_path ["root"], abs_path ["root", "sub"]]
    [abs_path ["root", "lit.cfg"], abs_path ["root", "sub", "lit.local.cfg"],
      abs_path ["root", "sub", "t1.txt"]]

/-- A suite root `/root` with the child directories `Output` and `inner`, the
second one a suite root of its own. -/
def nested_suite_env : Env :=
  demo_env
    [abs_path [], abs_path ["root"], abs_path ["root", "Output"], abs_path ["root", "inner"]]
    [abs_path ["root", "lit.cfg"], abs_path ["root", "inner", "lit.cfg"]]

/-- The suite of `/root/inner` in `nested_suite_env`, created after `root_suite`. -/
def inner_suite : TestSuitePointer := demo_suite_at 2 "inner" (abs_path ["root", "inner"])

/-- The state of `nested_suite_env` after the lookup of `/root/inner` from
`root_state`. -/
def inner_state : State :=
  { nextAddr := 4, notes := [], warnings := [], numErrors := 0
    cache := [(abs_path ["root"], (some root_suite, [])),
      (abs_path ["root", "inner"], (some inner_suite, []))] }

/-- A loader that declares the directory above the one of the configuration
file as the exec root of the suite. -/
def exec_root_load (cfgPath : FsPath) (cfg : TestingConfig) : TestingConfig × Nat :=
  ({ cfg with name := cfgPath.parent_path.filename,
              testExecRoot := some cfgPath.parent_path.parent_path }, 0)

/-- A suite root `/p/r` whose exec root is `/p` and which has a child
directory `r`: the exec-rooted path of that child is the suite root itself. -/
def exec_inside_env : Env :=
  { fs := plain_fs [abs_path [], abs_path ["p"], abs_path ["p", "r"], abs_path ["p", "r", "r"]]
      [abs_path ["p", "r", "lit.cfg"]]
    litConfig := demo_lit_config
    fromDefaults := demo_defaults
    loadFromPath := exec_root_load
    getTestsInDirectory := demo_format }

/-- The suite of `/p/r` in `exec_inside_env`. -/
def exec_inside_suite : TestSuitePointer :=
  { addr := 1
    obj :=
      { name := "r", sourceRoot := abs_path ["p", "r"], execRoot := abs_path ["p"]
        config :=
          { addr := 0
            obj := { demo_defaults with name := "r", testExecRoot := some (abs_path ["p"]) } } } }

/-- The state after `get_test_suite` on `/p/r` from `init_state`. -/
def exec_inside_state : State := resolved_state (abs_path ["p", "r"]) (some exec_inside_suite, [])

/-- A suite root `/r` holding `lit.cfg`, and a symbolic link `/link` to it:
the two paths have the canonical form `/r`. -/
def symlink_env : Env :=
  { fs :=
      { fs_exists := fun p =>
          p = abs_path ["link"] || p = abs_path ["link", "lit.cfg"] ||
            (plain_fs [abs_path [], abs_path ["r"]] [abs_path ["r", "lit.cfg"]]).fs_exists p
        is_directory := fun p =>
          p = abs_path ["link"] ||
            (plain_fs [abs_path [], abs_path ["r"]] [abs_path ["r", "lit.cfg"]]).is_directory p
        canonical := fun p =>
          if p = abs_path ["link"] then some (abs_path ["r"])
          else if p = abs_path ["link", "lit.cfg"] then some (abs_path ["r", "lit.cfg"])
          else (plain_fs [abs_path [], abs_path ["r"]] [abs_path ["r", "lit.cfg"]]).canonical p
        directory_iterator := fun p =>
          if p = abs_path ["link"] then ["lit.cfg"]
          else
            (plain_fs [abs_path [], abs_path ["r"]]
              [abs_path ["r", "lit.cfg"]]).directory_iterator p
        current_path := abs_path [] }
    litConfig := demo_lit_config
    fromDefaults := demo_defaults
    loadFromPath := demo_load
    getTestsInDirectory := demo_format }

/-- The state of `symlink_env` after resolving `/link` from `init_state`: the
suite is rooted at the path it was asked about and stored under `/r`. -/
def symlink_state : State :=
  resolved_state (abs_path ["r"]) (some (demo_suite_at 0 "r" (abs_path ["link"])), [])

/-- As `nested_dirs_env`, with the empty parameter map that `load_test_suite`
passes to the `LitConfig`: there is no `config_map` key. -/
def no_config_map_env : Env :=
  { nested_dirs_env with litConfig := { demo_lit_config with params := [] } }

/-- As `nested_dirs_env`, with a `config_map` parameter that holds no value,
and with debugging notes on. -/
def empty_config_map_env : Env :=
  { nested_dirs_env with
    litConfig := { demo_lit_config with params := [("config_map", .empty)], debug := true } }

/-- A suite root `/root` whose local configuration file selects a test
format, and a directory `/other` with no configuration file in it or above. -/
def two_inputs_env : Env :=
  demo_env [abs_path [], abs_path ["root"], abs_path ["other"]]
    [abs_path ["root", "lit.cfg"], abs_path ["root", "lit.local.cfg"],
      abs_path ["list.txt"], abs_path ["long.txt"]]

/-- A list file whose first line has 256 characters and whose second line is
`/root`. -/
def long_list_text : String :=
  String.mk (List.replicate 256 'a' ++ Char.ofNat 10 :: "/root".data ++ [Char.ofNat 10])

/-- A list file with the lines `/other`, an empty line and `/root`. -/
def short_list_text : String :=
  String.mk ("/other".data ++ [Char.ofNat 10, Char.ofNat 10] ++ "/root".data ++ [Char.ofNat 10])

/-- As `two_inputs_env`, with the contents of the list files `/list.txt` and
`/long.txt`. -/
def list_file_env : Env :=
  { two_inputs_env with
    fs :=
      { two_inputs_env.fs with
        read_file := fun p =>
          if p = abs_path ["list.txt"] then some short_list_text
          else if p = abs_path ["long.txt"] then some long_list_text
          else none } }

/-- As `two_inputs_env`, with test formats that list no test. -/
def empty_format_env : Env :=
  { two_inputs_env with getTestsInDirectory := fun _ _ _ _ => [] }

/-- As `two_inputs_env`, with a loader that reports one error for every load. -/
def failing_load_env : Env :=
  { two_inputs_env with loadFromPath := fun cfgPath cfg => ((demo_load cfgPath cfg).1, 1) }

/-- The state in which `find_tests_for_inputs` ends for the inputs `/other` and
`/root` in `failing_load_env`, from `init_state`. -/
def failing_load_state : State :=
  { nextAddr := 3, notes := []
    warnings := [.unable_to_find_test_suite (abs_path ["other"])]
    numErrors := 2
    cache := [(abs_path [], (none, [])), (abs_path ["other"], (none, ["other"])),
      (abs_path ["root"], (some root_suite, []))] }

/-! ## Lemmas on paths and the cache -/

theorem FsPath.extend_nil (p : FsPath) : p.extend [] = p := by
  cases p; simp [FsPath.extend]

theorem FsPath.extend_extend (p : FsPath) (xs ys : List String) :
    (p.extend xs).extend ys = p.extend (xs ++ ys) := by
  simp [FsPath.extend, List.append_assoc]

theorem FsPath.parent_path_extend_snoc (p : FsPath) (init : List String) (c : String) :
    (p.extend (init ++ [c])).parent_path = p.extend init := by
  simp [FsPath.extend, FsPath.parent_path, ← List.append_assoc]

theorem FsPath.filename_extend_snoc (p : FsPath) (init : List String) (c : String) :
    (p.extend (init ++ [c])).filename = c := by
  simp [FsPath.extend, FsPath.filename, ← List.append_assoc]

theorem FsPath.parent_path_ne (p : FsPath) (h : p.comps ≠ []) : p.parent_path ≠ p := by
  intro e
  have hl := congrArg (fun q => q.comps.length) e
  simp only [FsPath.parent_path, List.length_dropLast] at hl
  have hpos : 0 < p.comps.length := List.length_pos.mpr h
  omega

theorem FsPath.parent_path_eq_self (p : FsPath) (h : p.comps = []) : p.parent_path = p := by
  cases p; simp_all [FsPath.parent_path]

theorem cache_find_insert_self (cache : List (FsPath × TestSuitSearchResult)) (k : FsPath)
    (r : TestSuitSearchResult) : cache_find (cache_insert cache k r) k = some r := by
  induction cache with
  | nil => simp [cache_insert, cache_find]
  | cons e rest ih =>
    obtain ⟨k0, v⟩ := e
    by_cases h : k0 = k
    · simp [cache_insert, cache_find, h]
    · simp [cache_insert, cache_find, h, ih]

theorem cache_find_insert_other (cache : List (FsPath × TestSuitSearchResult)) (k k1 : FsPath)
    (r : TestSuitSearchResult) (hne : k1 ≠ k) :
    cache_find (cache_insert cache k r) k1 = cache_find cache k1 := by
  induction cache with
  | nil =>
    have : ¬ k = k1 := fun e => hne e.symm
    simp [cache_insert, cache_find, this]
  | cons e rest ih =>
    obtain ⟨k0, v⟩ := e
    by_cases h : k0 = k
    · subst h
      have h1 : ¬ k0 = k1 := fun e => hne e.symm
      simp [cache_insert, cache_find, h1]
    · by_cases h1 : k0 = k1
      · subst h1
        simp [cache_insert, cache_find, h]
      · simp [cache_insert, cache_find, h, h1, ih]

theorem cache_insert_keys (cache : List (FsPath × TestSuitSearchResult)) (k : FsPath)
    (r : TestSuitSearchResult) :
    (cache_insert cache k r).map Prod.fst =
      if k ∈ cache.map Prod.fst then cache.map Prod.fst else cache.map Prod.fst ++ [k] := by
  induction cache with
  | nil => simp [cache_insert]
  | cons e rest ih =>
    obtain ⟨k0, v⟩ := e
    by_cases h : k0 = k
    · simp [cache_insert, h]
    · have h2 : ¬ k = k0 := fun e => h e.symm
      by_cases hm : k ∈ rest.map Prod.fst
      · simp only [cache_insert, h, if_false, List.map_cons, ih, hm, if_true, List.mem_cons,
          or_true]
      · simp only [cache_insert, h, if_false, List.map_cons, ih, hm, List.mem_cons, h2,
          or_self, List.cons_append]

theorem cache_insert_nodup (cache : List (FsPath × TestSuitSearchResult)) (k : FsPath)
    (r : TestSuitSearchResult) (h : (cache.map Prod.fst).Nodup) :
    ((cache_insert cache k r).map Prod.fst).Nodup := by
  rw [cache_insert_keys]
  by_cases hm : k ∈ cache.map Prod.fst
  · simpa [hm] using h
  · simp only [hm, if_false]
    rw [List.nodup_append]
    refine ⟨h, List.nodup_singleton k, ?_⟩
    intro a ha hb
    simp only [List.mem_singleton] at hb
    exact hm (hb ▸ ha)

/-! ## Lemmas on the suite resolver -/

/-- A cached path is answered from the cache, with the state untouched. -/
theorem search_testsuit_fuel_cached (env : Env) (fuel : Nat) (path k : FsPath) (s : State)
    (r : TestSuitSearchResult) (hk : env.fs.canonical path = some k)
    (hf : cache_find s.cache k = some r) :
    search_testsuit_fuel env (fuel + 1) path s = .ok (r, s) := by
  simp [search_testsuit_fuel, hk, hf]

/-- What a successful call returns is what the cache holds afterwards. -/
theorem search_testsuit_fuel_stores (env : Env) (fuel : Nat) (path k : FsPath) (s s1 : State)
    (r : TestSuitSearchResult) (hk : env.fs.canonical path = some k)
    (h : search_testsuit_fuel env fuel path s = .ok (r, s1)) :
    cache_find s1.cache k = some r := by
  cases fuel with
  | zero => simp [search_testsuit_fuel] at h
  | succ n =>
    simp only [search_testsuit_fuel, hk] at h
    cases hf : cache_find s.cache k with
    | some r0 =>
      simp only [hf] at h
      injection h with h
      injection h with h1 h2
      subst h2; rw [← h1]; exact hf
    | none =>
      simp only [hf] at h
      cases hd : do_search_testsuit env (search_testsuit_fuel env n) path s with
      | error e => simp [hd] at h
      | ok v =>
        obtain ⟨r1, s2⟩ := v
        simp only [hd, cache_find_insert_self] at h
        injection h with h
        injection h with h1 h2
        subst h2; rw [← h1]
        exact cache_find_insert_self _ _ _

/-- A path that is not cached is resolved by `do_search_testsuit`, and the
result is stored under its canonical path. -/
theorem search_testsuit_fuel_uncached (env : Env) (fuel : Nat) (path k : FsPath) (s : State)
    (hk : env.fs.canonical path = some k) (hf : cache_find s.cache k = none) :
    search_testsuit_fuel env (fuel + 1) path s =
      match do_search_testsuit env (search_testsuit_fuel env fuel) path s with
      | .error e => .error e
      | .ok (r, s1) => .ok (r, { s1 with cache := cache_insert s1.cache k r }) := by
  simp only [search_testsuit_fuel, hk, hf]
  cases do_search_testsuit env (search_testsuit_fuel env fuel) path s with
  | error e => rfl
  | ok v => simp only [cache_find_insert_self]

theorem inits_snoc (init : List String) (c : String) :
    (init ++ [c]).inits = init.inits ++ [init ++ [c]] := by
  simp [List.inits_append, List.inits]

theorem FsPath.extend_snoc_ne (p : FsPath) (init : List String) (c : String) :
    p.extend init ≠ p.extend (init ++ [c]) := by
  intro e
  have hl := congrArg (fun q => q.comps.length) e
  simp [FsPath.extend] at hl

theorem FsPath.extend_ne_self (p : FsPath) (cs : List String) (h : cs ≠ []) :
    p.extend cs ≠ p := by
  intro e
  have hl := congrArg (fun q => q.comps.length) e
  simp only [FsPath.extend, List.length_append] at hl
  have hpos : 0 < cs.length := List.length_pos.mpr h
  omega

/-- Resolution below a directory `R`: when no directory from just below `R`
down to `R / comps` has a configuration file and the cache holds for them
nothing but what the resolver stores, the call on `R / comps` returns what the
call on `R` returns, with `comps` appended. -/
theorem search_testsuit_chain (env : Env) (R : FsPath) (rR : TestSuitSearchResult)
    (s sR : State) (hR : search_testsuit env R s = .ok (rR, sR)) (comps : List String) :
    (∀ pre ∈ comps.inits, pre ≠ [] →
      env.fs.canonical (R.extend pre) = some (R.extend pre)) →
    (∀ pre ∈ comps.inits, pre ≠ [] →
      dir_contains_test_suite env.fs (R.extend pre) env.litConfig = none) →
    (∀ pre ∈ comps.inits, pre ≠ [] →
      cache_find s.cache (R.extend pre) = none ∨
      cache_find s.cache (R.extend pre) = some (rR.1, rR.2 ++ pre)) →
    ∃ s2, search_testsuit env (R.extend comps) s = .ok ((rR.1, rR.2 ++ comps), s2) := by
  induction comps using List.reverseRecOn with
  | nil =>
    intro _ _ _
    refine ⟨sR, ?_⟩
    rw [FsPath.extend_nil, List.append_nil]; exact hR
  | append_singleton init c ih =>
    intro hc hn hk
    have hmem : init ++ [c] ∈ (init ++ [c]).inits := by simp [inits_snoc]
    have hne : init ++ [c] ≠ [] := by simp
    have hsub : ∀ pre, pre ∈ init.inits → pre ∈ (init ++ [c]).inits := by
      intro pre h; simp [inits_snoc, h]
    have hc1 := hc _ hmem hne
    have hn1 := hn _ hmem hne
    have hk1 := hk _ hmem hne
    obtain ⟨s2, hs2⟩ := ih (fun pre h => hc pre (hsub pre h)) (fun pre h => hn pre (hsub pre h))
      (fun pre h => hk pre (hsub pre h))
    have hlen : (R.extend (init ++ [c])).comps.length = (R.extend init).comps.length + 1 := by
      simp [FsPath.extend]; omega
    have hs3 : search_testsuit_fuel env ((R.extend init).comps.length + 1) (R.extend init) s =
        .ok ((rR.1, rR.2 ++ init), s2) := hs2
    unfold search_testsuit
    rw [hlen]
    rcases hk1 with hk1 | hk1
    · have hpne : ¬ R.extend init = R.extend (init ++ [c]) := FsPath.extend_snoc_ne R init c
      rw [search_testsuit_fuel_uncached env _ _ _ s hc1 hk1]
      simp only [do_search_testsuit, hn1, FsPath.parent_path_extend_snoc,
        FsPath.filename_extend_snoc, hpne, if_false, hs3]
      refine ⟨State.mk s2.nextAddr s2.notes s2.warnings s2.numErrors
        (cache_insert s2.cache (R.extend (init ++ [c])) (rR.1, rR.2 ++ (init ++ [c]))), ?_⟩
      simp [List.append_assoc]
    · exact ⟨s, search_testsuit_fuel_cached env _ _ _ s _ hc1 hk1⟩

/-- Finding a configuration file makes `do_search_testsuit` return a suite
with no remaining components, and leaves the cache as it was. -/
theorem do_search_testsuit_found (env : Env)
    (search : FsPath → State → Except Failure (TestSuitSearchResult × State))
    (path : FsPath) (s s1 : State) (r : TestSuitSearchResult)
    (hcfg : (dir_contains_test_suite env.fs path env.litConfig).isSome = true)
    (h : do_search_testsuit env search path s = .ok (r, s1)) :
    (∃ ts, r = (some ts, [])) ∧ s1.cache = s.cache := by
  cases hd : dir_contains_test_suite env.fs path env.litConfig with
  | none => simp [hd] at hcfg
  | some cfgPathOpt =>
    simp only [do_search_testsuit, hd] at h
    cases hp : params_at env.litConfig.params "config_map" with
    | error e => simp [hp] at h
    | ok configMapAny =>
      simp only [hp] at h
      cases hq : resolve_config_path env.fs configMapAny cfgPathOpt with
      | error e => simp [hq] at h
      | ok cfgPath =>
        simp only [hq] at h
        injection h with h
        injection h with h1 h2
        subst h2
        refine ⟨⟨_, h1.symm⟩, ?_⟩
        simp only [debug_note]
        split <;> rfl

theorem do_search_testsuit_nodup (env : Env)
    (search : FsPath → State → Except Failure (TestSuitSearchResult × State))
    (hsearch : ∀ p s s1 r, search p s = .ok (r, s1) →
      (s.cache.map Prod.fst).Nodup → (s1.cache.map Prod.fst).Nodup)
    (path : FsPath) (s s1 : State) (r : TestSuitSearchResult)
    (h : do_search_testsuit env search path s = .ok (r, s1))
    (hnd : (s.cache.map Prod.fst).Nodup) : (s1.cache.map Prod.fst).Nodup := by
  cases hd : dir_contains_test_suite env.fs path env.litConfig with
  | some cfg =>
    have hfound := do_search_testsuit_found env search path s s1 r (by simp [hd]) h
    rw [hfound.2]; exact hnd
  | none =>
    simp only [do_search_testsuit, hd] at h
    by_cases hp : path.parent_path = path
    · simp only [hp, if_true] at h
      injection h with h
      injection h with _ h2
      subst h2; exact hnd
    · simp only [hp, if_false] at h
      cases hs : search path.parent_path s with
      | error e => simp [hs] at h
      | ok v =>
        obtain ⟨temp, s2⟩ := v
        simp only [hs] at h
        injection h with h
        injection h with _ h2
        subst h2
        exact hsearch _ _ _ _ hs hnd

/-- The keys of the cache stay pairwise distinct. -/
theorem search_testsuit_fuel_nodup (env : Env) :
    ∀ (fuel : Nat) (path : FsPath) (s s1 : State) (r : TestSuitSearchResult),
      search_testsuit_fuel env fuel path s = .ok (r, s1) →
      (s.cache.map Prod.fst).Nodup → (s1.cache.map Prod.fst).Nodup := by
  intro fuel
  induction fuel with
  | zero => intro path s s1 r h; simp [search_testsuit_fuel] at h
  | succ n ih =>
    intro path s s1 r h hnd
    cases hk : env.fs.canonical path with
    | none => simp [search_testsuit_fuel, hk] at h
    | some k =>
      cases hf : cache_find s.cache k with
      | some r0 =>
        rw [search_testsuit_fuel_cached env n path k s r0 hk hf] at h
        injection h with h
        injection h with _ h2
        subst h2; exact hnd
      | none =>
        rw [search_testsuit_fuel_uncached env n path k s hk hf] at h
        cases hd : do_search_testsuit env (search_testsuit_fuel env n) path s with
        | error e => simp [hd] at h
        | ok v =>
          obtain ⟨r1, s2⟩ := v
          simp only [hd] at h
          injection h with h
          injection h with _ h2
          subst h2
          exact cache_insert_nodup _ _ _ (do_search_testsuit_nodup env _ ih path s s2 r1 hd hnd)

/-! ## The fuel of the entry points is sufficient -/

theorem params_at_no_fuel (params : List (String × AnyValue)) (key : String) :
    params_at params key ≠ .error .fuel := by
  unfold params_at
  cases params.lookup key <;> simp

theorem resolve_config_path_no_fuel (fs : FileSystem) (configMapAny : AnyValue)
    (cfgPathOpt : FsPath) : resolve_config_path fs configMapAny cfgPathOpt ≠ .error .fuel := by
  unfold resolve_config_path
  cases configMapAny with
  | empty => simp
  | other => cases fs.canonical cfgPathOpt <;> simp
  | string_map m =>
    cases fs.canonical cfgPathOpt with
    | none => simp
    | some c => cases h : string_map_find m c <;> simp [h]

theorem do_search_testsuit_no_fuel (env : Env)
    (search : FsPath → State → Except Failure (TestSuitSearchResult × State))
    (path : FsPath) (s : State)
    (hsearch : path.parent_path ≠ path → search path.parent_path s ≠ .error .fuel) :
    do_search_testsuit env search path s ≠ .error .fuel := by
  cases hd : dir_contains_test_suite env.fs path env.litConfig with
  | none =>
    simp only [do_search_testsuit, hd]
    by_cases hp : path.parent_path = path
    · simp [hp]
    · have h := hsearch hp
      cases hs : search path.parent_path s with
      | error e =>
        rw [hs] at h
        simp only [hp, if_false]
        exact h
      | ok v => simp [hp]
  | some cfg =>
    simp only [do_search_testsuit, hd]
    have h1 := params_at_no_fuel env.litConfig.params "config_map"
    cases hp : params_at env.litConfig.params "config_map" with
    | error e => rw [hp] at h1; simpa using h1
    | ok configMapAny =>
      have h2 := resolve_config_path_no_fuel env.fs configMapAny cfg
      cases hq : resolve_config_path env.fs configMapAny cfg with
      | error e => rw [hq] at h2; simpa [hq] using h2
      | ok cfgPath => simp [hq]

/-- The recursion of `search_testsuit` never runs out of fuel when the fuel
exceeds the number of components of the path. -/
theorem search_testsuit_fuel_sufficient (env : Env) :
    ∀ (fuel : Nat) (path : FsPath) (s : State), path.comps.length < fuel →
      search_testsuit_fuel env fuel path s ≠ .error .fuel := by
  intro fuel
  induction fuel with
  | zero => intro path s h; omega
  | succ n ih =>
    intro path s hlt
    cases hk : env.fs.canonical path with
    | none => simp [search_testsuit_fuel, hk]
    | some k =>
      cases hf : cache_find s.cache k with
      | some r => rw [search_testsuit_fuel_cached env n path k s r hk hf]; simp
      | none =>
        rw [search_testsuit_fuel_uncached env n path k s hk hf]
        have hd := do_search_testsuit_no_fuel env (search_testsuit_fuel env n) path s
          (fun hp => ih _ s (by
            have hne : path.comps ≠ [] := fun e => hp (FsPath.parent_path_eq_self path e)
            have hpos : 0 < path.comps.length := List.length_pos.mpr hne
            simp only [FsPath.parent_path, List.length_dropLast]
            omega))
        cases hr : do_search_testsuit env (search_testsuit_fuel env n) path s with
        | error e => rw [hr] at hd; exact hd
        | ok v => simp

/-- The loop of `get_test_suite` never runs out of fuel when the fuel exceeds
the number of components of the path. -/
theorem skip_files_fuel_sufficient (fs : FileSystem) :
    ∀ (fuel : Nat) (currentDir : FsPath) (components : List String),
      currentDir.comps.length < fuel →
      skip_files fs fuel currentDir components ≠ .error .fuel := by
  intro fuel
  induction fuel with
  | zero => intro currentDir components h; omega
  | succ n ih =>
    intro currentDir components hlt
    rw [skip_files]
    by_cases hd : fs.is_directory currentDir = true
    · simp [hd]
    · by_cases hp : currentDir.parent_path = currentDir
      · simp [hd, hp]
      · simp only [hd, hp, if_false, Bool.false_eq_true]
        apply ih
        have hne : currentDir.comps ≠ [] :=
          fun e => hp (FsPath.parent_path_eq_self currentDir e)
        have hpos : 0 < currentDir.comps.length := List.length_pos.mpr hne
        simp only [FsPath.parent_path, List.length_dropLast]
        omega

/-! ## The suite resolver: claims C1 to C3 -/

/-- C1: let `R` be a suite root (it contains a configuration file) and
`R / comps` a descendant directory such that no directory from just below `R`
down to it contains a configuration file; the paths are canonical, as they are
when `get_test_suite` calls the resolver, and the cache holds for them nothing
but what the resolver stores. After `search_testsuit` on `R`, `search_testsuit`
on the descendant with the same cache returns the very suite pointer the call
on `R` returned, and `comps`, the base names from just below `R` down to the
descendant in root-to-leaf order, as remaining components. -/
theorem search_testsuit_descendant_same_suite (env : Env) (R : FsPath) (comps : List String)
    (s0 s1 : State) (rR : TestSuitSearchResult)
    (hcfg : (dir_contains_test_suite env.fs R env.litConfig).isSome = true)
    (hc : ∀ pre ∈ comps.inits, env.fs.canonical (R.extend pre) = some (R.extend pre))
    (hn : ∀ pre ∈ comps.inits, pre ≠ [] →
      dir_contains_test_suite env.fs (R.extend pre) env.litConfig = none)
    (hR0 : cache_find s0.cache R = none ∨ ∃ ts, cache_find s0.cache R = some (some ts, []))
    (hk : ∀ pre ∈ comps.inits, pre ≠ [] →
      cache_find s0.cache (R.extend pre) = none ∨
      cache_find s0.cache (R.extend pre) = some (rR.1, pre))
    (hR : search_testsuit env R s0 = .ok (rR, s1)) :
    ∃ ts s2, rR = (some ts, []) ∧
      search_testsuit env (R.extend comps) s1 = .ok ((some ts, comps), s2) := by
  have hcR : env.fs.canonical R = some R := by
    have h := hc [] (by simp [List.mem_inits])
    rwa [FsPath.extend_nil] at h
  have hstore := search_testsuit_fuel_stores env _ R R s0 s1 rR hcR hR
  have key : (∃ ts, rR = (some ts, [])) ∧
      ∀ k, k ≠ R → cache_find s1.cache k = cache_find s0.cache k := by
    unfold search_testsuit at hR
    rcases hR0 with h0 | ⟨ts, h0⟩
    · rw [search_testsuit_fuel_uncached env _ R R s0 hcR h0] at hR
      cases hd : do_search_testsuit env (search_testsuit_fuel env R.comps.length) R s0 with
      | error e => simp [hd] at hR
      | ok v =>
        obtain ⟨r, s2⟩ := v
        simp only [hd] at hR
        injection hR with hR
        injection hR with h1 h2
        obtain ⟨⟨ts, hts⟩, hcache⟩ := do_search_testsuit_found env _ R s0 s2 r hcfg hd
        subst h2
        refine ⟨⟨ts, by rw [← h1, hts]⟩, ?_⟩
        intro k hkne
        simp only [cache_find_insert_other _ _ _ _ hkne, hcache]
    · rw [search_testsuit_fuel_cached env _ R R s0 _ hcR h0] at hR
      injection hR with hR
      injection hR with h1 h2
      subst h2
      exact ⟨⟨ts, h1.symm⟩, fun _ _ => rfl⟩
  obtain ⟨⟨ts, hts⟩, hframe⟩ := key
  have hR1 : search_testsuit env R s1 = .ok (rR, s1) :=
    search_testsuit_fuel_cached env _ R R s1 rR hcR hstore
  have h2 := search_testsuit_chain env R rR s1 s1 hR1 comps (fun pre h _ => hc pre h) hn
    (fun pre h hne => by
      rw [hframe _ (FsPath.extend_ne_self R pre hne)]
      have h3 := hk pre h hne
      rw [hts] at h3 ⊢
      simpa using h3)
  obtain ⟨s2, h2⟩ := h2
  refine ⟨ts, s2, hts, ?_⟩
  rw [hts] at h2
  simpa using h2

/-- Witness of C1: the suite root `/r` and its descendant `/r/a/b`. -/
theorem search_testsuit_descendant_same_suite_witness :
    ∃ ts s2, ((some (demo_suite_at 0 "r" (abs_path ["r"])), []) : TestSuitSearchResult) =
        (some ts, []) ∧
      search_testsuit nested_dirs_env ((abs_path ["r"]).extend ["a", "b"]) nested_dirs_state =
        .ok ((some ts, ["a", "b"]), s2) :=
  search_testsuit_descendant_same_suite nested_dirs_env (abs_path ["r"]) ["a", "b"] init_state
    nested_dirs_state (some (demo_suite_at 0 "r" (abs_path ["r"])), [])
    (by decide) (by decide) (by decide) (Or.inl (by decide)) (by decide) (by decide)

/-- C2, as stated, fails: in a filesystem that consists of the root and of a
directory `/a`, with no configuration file anywhere, `search_testsuit` on `/a`
with an empty cache returns no suite together with the components `["a"]`,
not with an empty list. -/
theorem search_testsuit_no_config_counterexample :
    ¬ (∀ (env : Env) (D : FsPath) (s : State), s.cache = [] →
        (∀ pre ∈ D.comps.inits,
          env.fs.canonical { rooted := D.rooted, comps := pre } =
            some { rooted := D.rooted, comps := pre } ∧
          dir_contains_test_suite env.fs { rooted := D.rooted, comps := pre } env.litConfig =
            none) →
        ∃ s1, search_testsuit env D s = .ok ((none, []), s1)) := by
  intro h
  obtain ⟨s1, h1⟩ := h no_config_env (abs_path ["a"]) init_state rfl (by decide)
  have h2 : (search_testsuit no_config_env (abs_path ["a"]) init_state).map (fun v => v.1.2) =
      .ok ["a"] := by decide
  rw [h1] at h2
  simp [Except.map] at h2

/-- C2, amended: when neither `D` nor any of its ancestors up to the root
contains a configuration file (the paths being canonical and the cache holding
for them nothing but what the resolver stores), `search_testsuit` on `D`
returns no suite together with the path components of `D`, root first; the
list is empty exactly when `D` is the root itself. -/
theorem search_testsuit_no_config (env : Env) (D : FsPath) (s : State)
    (hc : ∀ pre ∈ D.comps.inits,
      env.fs.canonical { rooted := D.rooted, comps := pre } =
        some { rooted := D.rooted, comps := pre })
    (hn : ∀ pre ∈ D.comps.inits,
      dir_contains_test_suite env.fs { rooted := D.rooted, comps := pre } env.litConfig = none)
    (hk : ∀ pre ∈ D.comps.inits,
      cache_find s.cache { rooted := D.rooted, comps := pre } = none ∨
      cache_find s.cache { rooted := D.rooted, comps := pre } = some (none, pre)) :
    ∃ s1, search_testsuit env D s = .ok ((none, D.comps), s1) := by
  have hnil : ([] : List String) ∈ D.comps.inits := by simp [List.mem_inits]
  have hext : ∀ pre : List String,
      (FsPath.mk D.rooted []).extend pre = { rooted := D.rooted, comps := pre } := by
    intro pre; simp [FsPath.extend]
  have hR : ∃ sR, search_testsuit env (FsPath.mk D.rooted []) s = .ok ((none, []), sR) := by
    unfold search_testsuit
    rcases hk [] hnil with h0 | h0
    · rw [search_testsuit_fuel_uncached env _ _ _ s (hc [] hnil) h0]
      simp only [do_search_testsuit, hn [] hnil, FsPath.parent_path, List.dropLast_nil, if_true]
      exact ⟨_, rfl⟩
    · exact ⟨s, search_testsuit_fuel_cached env _ _ _ s _ (hc [] hnil) h0⟩
  obtain ⟨sR, hR⟩ := hR
  have h2 := search_testsuit_chain env (FsPath.mk D.rooted []) (none, []) s sR hR D.comps
    (fun pre h _ => by rw [hext]; exact hc pre h)
    (fun pre h _ => by rw [hext]; exact hn pre h)
    (fun pre h _ => by rw [hext]; simpa using hk pre h)
  obtain ⟨s1, h2⟩ := h2
  refine ⟨s1, ?_⟩
  rw [hext] at h2
  simpa using h2

/-- Witness of C2, amended: the directory `/a` of `no_config_env`. -/
theorem search_testsuit_no_config_witness :
    ∃ s1, search_testsuit no_config_env (abs_path ["a"]) init_state =
      .ok ((none, (abs_path ["a"]).comps), s1) :=
  search_testsuit_no_config no_config_env (abs_path ["a"]) init_state
    (by decide) (by decide) (by decide)

/-- C3: for every state and every path `p1` with canonical form `k`, when
`search_testsuit` on `p1` returns `r1` and leaves the state `s1`, then
`search_testsuit` on any path `p2` with the same canonical form returns the
same `r1` (same optional suite pointer, same components) and leaves the whole
state `s1` as it is: nothing is allocated, no message or error is added, the
cache is unchanged. This holds whatever the filesystem, the candidate names
and the loader are at the second call, as long as `p2` has the canonical form
`k`: the second call searches for no configuration file and loads none. The
cache holds `r1` for `k`, and its keys stay pairwise distinct, so it never
holds two results for one canonical path. -/
theorem search_testsuit_memoized (env : Env) (p1 k : FsPath) (s s1 : State)
    (r1 : TestSuitSearchResult)
    (h1 : env.fs.canonical p1 = some k)
    (hs : search_testsuit env p1 s = .ok (r1, s1)) :
    (∀ (env2 : Env) (p2 : FsPath), env2.fs.canonical p2 = some k →
      search_testsuit env2 p2 s1 = .ok (r1, s1)) ∧
      cache_find s1.cache k = some r1 ∧
      ((s.cache.map Prod.fst).Nodup → (s1.cache.map Prod.fst).Nodup) := by
  have hstore := search_testsuit_fuel_stores env _ p1 k s s1 r1 h1 hs
  exact ⟨fun env2 p2 h2 => search_testsuit_fuel_cached env2 _ p2 k s1 r1 h2 hstore, hstore,
    search_testsuit_fuel_nodup env _ p1 s s1 r1 hs⟩

/-- Witness of C3: in `symlink_env` the link `/link` is resolved first and the
directory `/r` it points to second. -/
theorem search_testsuit_memoized_witness :
    search_testsuit symlink_env (abs_path ["r"]) symlink_state =
        .ok ((some (demo_suite_at 0 "r" (abs_path ["link"])), []), symlink_state) ∧
      cache_find symlink_state.cache (abs_path ["r"]) =
        some (some (demo_suite_at 0 "r" (abs_path ["link"])), []) :=
  have h := search_testsuit_memoized symlink_env (abs_path ["link"]) (abs_path ["r"])
    init_state symlink_state (some (demo_suite_at 0 "r" (abs_path ["link"])), [])
    (by decide) (by decide)
  ⟨h.1 symlink_env (abs_path ["r"]) (by decide), h.2.1⟩

/-! ## Top-level lookup: claim C4 -/

/-- The upward walk of `get_test_suite` from `d / rest` stops at the directory
`d` when nothing strictly below `d` on the way is a directory, and has then
pushed the base names of `rest` from the last to the first. -/
theorem skip_files_stops (fs : FileSystem) (d : FsPath) (hd : fs.is_directory d = true)
    (rest : List String) :
    ∀ (fuel : Nat) (acc : List String),
      (∀ pre ∈ rest.inits, pre ≠ [] → fs.is_directory (d.extend pre) = false) →
      (d.extend rest).comps.length < fuel →
      skip_files fs fuel (d.extend rest) acc = .ok (some (d, acc ++ rest.reverse)) := by
  induction rest using List.reverseRecOn with
  | nil =>
    intro fuel acc _ hlt
    cases fuel with
    | zero => omega
    | succ n => simp [skip_files, FsPath.extend_nil, hd]
  | append_singleton init c ih =>
    intro fuel acc hf hlt
    cases fuel with
    | zero => omega
    | succ n =>
      have hmem : init ++ [c] ∈ (init ++ [c]).inits := by simp [inits_snoc]
      have hnd := hf _ hmem (by simp)
      have hpne : ¬ d.extend init = d.extend (init ++ [c]) := FsPath.extend_snoc_ne d init c
      have hlt2 : (d.extend init).comps.length < n := by
        simp only [FsPath.extend, List.length_append, List.length_singleton] at hlt ⊢
        omega
      have hrec := ih n (acc ++ [c]) (fun pre h hne => hf pre (by simp [inits_snoc, h]) hne) hlt2
      simp only [skip_files, hnd, FsPath.parent_path_extend_snoc, FsPath.filename_extend_snoc,
        hpne, if_false, hrec]
      simp

/-- C4: for an item whose canonical path is `d / rest`, where `d` is a
directory and no path strictly below `d` on the way to the item is one (so `d`
is the nearest ancestor-or-self directory), `get_test_suite` returns what
`search_testsuit` returns on `d`: the same suite and the same state, and as
components the remaining components of the resolver followed by `rest`, the
base names stripped on the way up, in root-to-leaf order with the name of the
item itself last. -/
theorem get_test_suite_nearest_directory (env : Env) (item d : FsPath) (rest : List String)
    (s : State)
    (hcanon : env.fs.canonical (env.fs.current_path.join item) = some (d.extend rest))
    (hd : env.fs.is_directory d = true)
    (hfiles : ∀ pre ∈ rest.inits, pre ≠ [] → env.fs.is_directory (d.extend pre) = false) :
    get_test_suite env item s =
      match search_testsuit env d s with
      | .error e => .error e
      | .ok (temp, s1) => .ok ((temp.1, temp.2 ++ rest), s1) := by
  have hskip := skip_files_stops env.fs d hd rest ((d.extend rest).comps.length + 1) []
    hfiles (Nat.lt_succ_self _)
  simp only [get_test_suite, hcanon, hskip, List.nil_append, List.reverse_reverse]

/-- Witness of C4: the file `/r/lit.cfg` of `nested_dirs_env`, below the
directory `/r`. -/
theorem get_test_suite_nearest_directory_witness :
    get_test_suite nested_dirs_env (abs_path ["r", "lit.cfg"]) init_state =
      match search_testsuit nested_dirs_env (abs_path ["r"]) init_state with
      | .error e => .error e
      | .ok (temp, s1) => .ok ((temp.1, temp.2 ++ ["lit.cfg"]), s1) :=
  get_test_suite_nearest_directory nested_dirs_env (abs_path ["r", "lit.cfg"]) (abs_path ["r"])
    ["lit.cfg"] init_state (by decide) (by decide) (by decide)

/-! ## Local configuration: claims C5 and C6 -/

/-- The local configuration of the empty path is one level of the walk from
the root configuration. -/
theorem get_local_config_nil (env : Env) (testSuite : TestSuitePointer) (s : State) :
    get_local_config env testSuite [] s =
      .ok (local_config_level env testSuite (testSuite.obj.config, s) []) := by
  simp only [get_local_config, get_local_config_fuel, local_config_level, List.isEmpty_nil,
    if_true]
  cases choose_config_file_from_dir env.fs (testSuite.obj.getSourcePath [])
    env.litConfig.localConfigNames <;> rfl

/-- The local configuration of a path is one level of the walk from the local
configuration of the path without its last component. -/
theorem get_local_config_snoc (env : Env) (testSuite : TestSuitePointer) (init : List String)
    (c : String) (s : State) :
    get_local_config env testSuite (init ++ [c]) s =
      match get_local_config env testSuite init s with
      | .error e => .error e
      | .ok current => .ok (local_config_level env testSuite current (init ++ [c])) := by
  have hlen : (init ++ [c]).length + 1 = (init.length + 1) + 1 := by simp
  have hemp : (init ++ [c]).isEmpty = false := by simp
  unfold get_local_config
  rw [hlen, get_local_config_fuel]
  simp only [hemp, List.dropLast_concat, Bool.false_eq_true, if_false]
  cases get_local_config_fuel env testSuite (init.length + 1) init s with
  | error e => rfl
  | ok v =>
    obtain ⟨parent, s1⟩ := v
    simp only [local_config_level]
    cases choose_config_file_from_dir env.fs (testSuite.obj.getSourcePath (init ++ [c]))
      env.litConfig.localConfigNames <;> rfl

/-- The function `get_local_config` computes the walk of the specification. -/
theorem get_local_config_eq_walk (env : Env) (testSuite : TestSuitePointer)
    (pathInSuite : List String) (s : State) :
    get_local_config env testSuite pathInSuite s =
      .ok (local_config_walk env testSuite pathInSuite s) := by
  induction pathInSuite using List.reverseRecOn with
  | nil => rw [get_local_config_nil]; simp [local_config_walk, List.inits]
  | append_singleton init c ih =>
    rw [get_local_config_snoc, ih]
    simp [local_config_walk, inits_snoc, List.foldl_append]

theorem local_config_level_foldl_none (env : Env) (testSuite : TestSuitePointer)
    (l : List (List String)) (current : TestingConfigPointer × State)
    (h : ∀ pre ∈ l, choose_config_file_from_dir env.fs (testSuite.obj.getSourcePath pre)
      env.litConfig.localConfigNames = none) :
    l.foldl (local_config_level env testSuite) current = current := by
  induction l generalizing current with
  | nil => rfl
  | cons pre rest ih =>
    have h1 := h pre (by simp)
    simp only [List.foldl_cons, local_config_level, h1]
    exact ih current (fun q hq => h q (by simp [hq]))

/-- C5: when no local configuration file exists in the source directory of any
prefix of `P`, from the empty prefix (the suite root) down to `P` itself,
`get_local_config` returns the configuration pointer of the suite itself, the
same address and object, and the state is unchanged: nothing is allocated, so
no copy is made. -/
theorem get_local_config_shares_root_config (env : Env) (testSuite : TestSuitePointer)
    (P : List String) (s : State)
    (h : ∀ pre ∈ P.inits, choose_config_file_from_dir env.fs (testSuite.obj.getSourcePath pre)
      env.litConfig.localConfigNames = none) :
    get_local_config env testSuite P s = .ok (testSuite.obj.config, s) := by
  rw [get_local_config_eq_walk, local_config_walk,
    local_config_level_foldl_none env testSuite P.inits _ h]

/-- Witness of C5: the path `sub` in the suite of `/root`, which has no local
configuration file. -/
theorem get_local_config_shares_root_config_witness :
    get_local_config single_test_env root_suite ["sub"] root_state =
      .ok (root_suite.obj.config, root_state) :=
  get_local_config_shares_root_config single_test_env root_suite ["sub"] root_state
    (by decide)

/-- C6: `get_local_config` returns what the walk of the specification gives:
over the prefixes of `P` from the empty one to `P`, starting from the root
configuration of the suite, each prefix whose source directory contains a
local configuration file replaces the current configuration by a copy of it
with that file loaded. In particular, with a local configuration file
`cfgPath` found at `a/b` and none at the root, at `a` or at `a/b/c`, the
configuration for `[a, b, c]` is a newly allocated copy of the root
configuration with `cfgPath` loaded, and the configuration for `[a]` is the
root configuration pointer itself. -/
theorem get_local_config_refines_walk (env : Env) (testSuite : TestSuitePointer) :
    (∀ (P : List String) (s : State),
      get_local_config env testSuite P s = .ok (local_config_walk env testSuite P s)) ∧
    (∀ (a b c : String) (cfgPath : FsPath) (s : State),
      choose_config_file_from_dir env.fs (testSuite.obj.getSourcePath [])
        env.litConfig.localConfigNames = none →
      choose_config_file_from_dir env.fs (testSuite.obj.getSourcePath [a])
        env.litConfig.localConfigNames = none →
      choose_config_file_from_dir env.fs (testSuite.obj.getSourcePath [a, b])
        env.litConfig.localConfigNames = some cfgPath →
      choose_config_file_from_dir env.fs (testSuite.obj.getSourcePath [a, b, c])
        env.litConfig.localConfigNames = none →
      get_local_config env testSuite [a, b, c] s =
          .ok ({ addr := (debug_note env.litConfig (.loading_local_config cfgPath) s).nextAddr,
                 obj := (env.loadFromPath cfgPath testSuite.obj.config.obj).1 },
            { debug_note env.litConfig (.loading_local_config cfgPath) s with
              nextAddr := (debug_note env.litConfig (.loading_local_config cfgPath) s).nextAddr + 1,
              numErrors := (debug_note env.litConfig (.loading_local_config cfgPath) s).numErrors +
                (env.loadFromPath cfgPath testSuite.obj.config.obj).2 }) ∧
        get_local_config env testSuite [a] s = .ok (testSuite.obj.config, s)) := by
  refine ⟨get_local_config_eq_walk env testSuite, ?_⟩
  intro a b c cfgPath s h0 h1 h2 h3
  constructor
  · rw [get_local_config_eq_walk]
    simp [local_config_walk, List.inits, local_config_level, h0, h1, h2, h3]
  · rw [get_local_config_eq_walk]
    simp [local_config_walk, List.inits, local_config_level, h0, h1]

/-- Witness of C6: the suite of `/s` in `local_config_env`, whose only local
configuration file is the one of `/s/a/b`. -/
theorem get_local_config_refines_walk_witness :
    get_local_config local_config_env (demo_suite_at 0 "s" (abs_path ["s"])) ["a", "b", "c"]
        (resolved_state (abs_path ["s"]) (some (demo_suite_at 0 "s" (abs_path ["s"])), [])) =
      .ok ({ addr := 2,
             obj := { demo_defaults with
               name := "s", excludes := ["skipme"], testFormat := some 0 } },
        { resolved_state (abs_path ["s"]) (some (demo_suite_at 0 "s" (abs_path ["s"])), []) with
          nextAddr := 3 }) ∧
      get_local_config local_config_env (demo_suite_at 0 "s" (abs_path ["s"])) ["a"]
        (resolved_state (abs_path ["s"]) (some (demo_suite_at 0 "s" (abs_path ["s"])), [])) =
      .ok ((demo_suite_at 0 "s" (abs_path ["s"])).obj.config,
        resolved_state (abs_path ["s"]) (some (demo_suite_at 0 "s" (abs_path ["s"])), [])) :=
  (get_local_config_refines_walk local_config_env (demo_suite_at 0 "s" (abs_path ["s"]))).2
    "a" "b" "c" (abs_path ["s", "a", "b", "lit.local.cfg"])
    (resolved_state (abs_path ["s"]) (some (demo_suite_at 0 "s" (abs_path ["s"])), []))
    (by decide) (by decide) (by decide) (by decide)

/-! ## The test enumerator: claims C7 to C10 -/

/-- The fixture states are the ones discovery reaches: `get_test_suite` on the
suite root, from `init_state`, returns the fixture suite and leaves the
fixture state. -/
theorem fixtures_reachable :
    get_test_suite single_test_env (abs_path ["root"]) init_state =
        .ok ((some root_suite, []), root_state) ∧
      get_test_suite format_dir_env (abs_path ["root"]) init_state =
        .ok ((some root_suite, []), root_state) ∧
      get_test_suite nested_suite_env (abs_path ["root"]) init_state =
        .ok ((some root_suite, []), root_state) ∧
      get_test_suite nested_suite_env (abs_path ["root", "inner"]) root_state =
        .ok ((some inner_suite, []), inner_state) ∧
      get_test_suite exec_inside_env (abs_path ["p", "r"]) init_state =
        .ok ((some exec_inside_suite, []), exec_inside_state) :=
  ⟨by decide, by decide, by decide, by decide, by decide⟩

/-- C7, the code at a failing input: for the file `sub/t1.txt` of the suite of
`/root`, `get_tests_in_suite` returns one test, owned by the suite and
configured by `get_local_config` on `["sub"]`, but its path-in-suite is
`["sub"]`, the path without the file name, and not `["sub", "t1.txt"]`. -/
theorem get_tests_in_suite_file_drops_name :
    get_tests_in_suite single_test_env 1 root_suite ["sub", "t1.txt"] root_state =
        .ok ([{ suite := root_suite, pathInSuite := ["sub"], config := root_suite.obj.config }],
          root_state) ∧
      get_local_config single_test_env root_suite ["sub"] root_state =
        .ok (root_suite.obj.config, root_state) :=
  ⟨by decide, by decide⟩

/-- C8, the code at a failing input: in `format_dir_env` the first surviving
child `sub` of the suite root has no configuration file under its exec-rooted
or its source-rooted path, and `get_tests_in_suite` on `["sub"]` returns one
test; yet `get_tests_in_suite` on the suite root raises
`std::bad_optional_access`, from `subTs.value()` on the empty optional. -/
theorem get_tests_in_suite_no_nested_suite_throws :
    dir_contains_test_suite format_dir_env.fs (root_suite.obj.getExecPath ["sub"])
        format_dir_env.litConfig = none ∧
      dir_contains_test_suite format_dir_env.fs
        ((root_suite.obj.getSourcePath []).append_name "sub") format_dir_env.litConfig = none ∧
      format_dir_env.fs.directory_iterator (root_suite.obj.getSourcePath []) =
        ["sub", "lit.cfg"] ∧
      get_tests_in_suite format_dir_env 1 root_suite ["sub"] root_state =
        .ok ([{ suite := root_suite, pathInSuite := ["sub", "t1.txt"],
                config := { addr := 2, obj := { demo_defaults with
                  name := "root", excludes := ["skipme"], testFormat := some 0 } } }],
          { root_state with nextAddr := 3 }) ∧
      get_tests_in_suite format_dir_env 2 root_suite [] root_state =
        .error .bad_optional_access :=
  ⟨by decide, by decide, by decide, by decide, by decide⟩

/-- A call on an existing directory whose local configuration has no test
format is the loop over the entries of the directory. -/
theorem get_tests_in_suite_directory (env : Env) (fuel : Nat) (testSuite : TestSuitePointer)
    (P : List String) (s s1 : State) (lc : TestingConfigPointer)
    (hex : env.fs.fs_exists (testSuite.obj.getSourcePath P) = true)
    (hdir : env.fs.is_directory (testSuite.obj.getSourcePath P) = true)
    (hlc : get_local_config env testSuite P s = .ok (lc, s1))
    (hfmt : lc.obj.testFormat = none) :
    get_tests_in_suite env (fuel + 1) testSuite P s =
      get_tests_in_suite_loop env (get_tests_in_suite env fuel) testSuite P lc
        (testSuite.obj.getSourcePath P)
        (env.fs.directory_iterator (testSuite.obj.getSourcePath P)) s1 := by
  rw [get_tests_in_suite]
  simp only [hex, hdir, hlc, hfmt, Bool.not_true, Bool.false_eq_true, if_false]

/-- Entries skipped by name, by the exclusion set or for not being directories
are passed over by the loop. -/
theorem get_tests_in_suite_loop_skip (env : Env)
    (recurse : TestSuitePointer → List String → State → Except Failure (TestList × State))
    (testSuite : TestSuitePointer) (P : List String) (lc : TestingConfigPointer)
    (sourcePath : FsPath) (skipped l : List String) (s : State)
    (hskip : ∀ f ∈ skipped, skipped_by_name lc f = true ∨
      env.fs.is_directory (sourcePath.append_name f) = false) :
    get_tests_in_suite_loop env recurse testSuite P lc sourcePath (skipped ++ l) s =
      get_tests_in_suite_loop env recurse testSuite P lc sourcePath l s := by
  induction skipped with
  | nil => rfl
  | cons f rest ih =>
    have hrest := ih (fun g hg => hskip g (by simp [hg]))
    rw [List.cons_append, get_tests_in_suite_loop]
    rcases hskip f (by simp) with h | h
    · simp only [h, if_true, hrest]
    · by_cases hn : skipped_by_name lc f = true
      · simp only [hn, if_true, hrest]
      · simp only [hn, h, Bool.not_false, if_true, if_false, hrest, Bool.false_eq_true]

/-- The nested-suite lookup of a child with a configuration file under its
exec-rooted or its source-rooted path: the exec-rooted path when it contains
one, the source-rooted path otherwise. -/
theorem nested_suite_lookup_found (env : Env) (fileExecPath path : FsPath) (s : State)
    (hcfg : (dir_contains_test_suite env.fs fileExecPath env.litConfig).isSome = true ∨
      (dir_contains_test_suite env.fs path env.litConfig).isSome = true) :
    nested_suite_lookup env fileExecPath path s =
      if (dir_contains_test_suite env.fs fileExecPath env.litConfig).isSome then
        get_test_suite env fileExecPath s
      else get_test_suite env path s := by
  unfold nested_suite_lookup
  by_cases h : (dir_contains_test_suite env.fs fileExecPath env.litConfig).isSome = true
  · simp only [h, if_true]
  · rcases hcfg with h1 | h1
    · exact absurd h1 h
    · simp only [h, h1, if_true, if_false, Bool.false_eq_true]

/-- The loop at a surviving child whose lookup finds a suite other than the
current one: the result is the recursive call on that suite. -/
theorem get_tests_in_suite_loop_nested (env : Env)
    (recurse : TestSuitePointer → List String → State → Except Failure (TestList × State))
    (testSuite nested : TestSuitePointer) (P nestedSubPath : List String)
    (lc : TestingConfigPointer) (sourcePath : FsPath) (c : String) (rest : List String)
    (s1 s2 : State)
    (hc : skipped_by_name lc c = false)
    (hcd : env.fs.is_directory (sourcePath.append_name c) = true)
    (hlook : nested_suite_lookup env (testSuite.obj.getExecPath (P ++ [c]))
      (sourcePath.append_name c) s1 = .ok ((some nested, nestedSubPath), s2))
    (hne : nested.addr ≠ testSuite.addr) :
    get_tests_in_suite_loop env recurse testSuite P lc sourcePath (c :: rest) s1 =
      recurse nested nestedSubPath s2 := by
  rw [get_tests_in_suite_loop]
  simp only [hc, hcd, hlook, hne, Bool.not_true, Bool.false_eq_true, if_false,
    Option.isSome_some, if_true]

/-- The loop at a surviving child whose lookup finds the current suite: the
child is passed over. -/
theorem get_tests_in_suite_loop_same (env : Env)
    (recurse : TestSuitePointer → List String → State → Except Failure (TestList × State))
    (testSuite sub : TestSuitePointer) (P subPath : List String)
    (lc : TestingConfigPointer) (sourcePath : FsPath) (c : String) (rest : List String)
    (s1 s2 : State)
    (hc : skipped_by_name lc c = false)
    (hcd : env.fs.is_directory (sourcePath.append_name c) = true)
    (hlook : nested_suite_lookup env (testSuite.obj.getExecPath (P ++ [c]))
      (sourcePath.append_name c) s1 = .ok ((some sub, subPath), s2))
    (heq : sub.addr = testSuite.addr) :
    get_tests_in_suite_loop env recurse testSuite P lc sourcePath (c :: rest) s1 =
      get_tests_in_suite_loop env recurse testSuite P lc sourcePath rest s2 := by
  rw [get_tests_in_suite_loop]
  simp only [hc, hcd, hlook, heq, Bool.not_true, Bool.false_eq_true, if_false, if_true]

/-- C9: in the fallback directory walk (existing directory, local
configuration without a test format), let `c` be the first surviving child:
the entries before it are skipped by name, exclusion set or for not being
directories, and `c` is a directory that is not skipped. Its nested suite is
looked up with `get_test_suite` on its exec-rooted path whenever that path
contains a configuration file, and on its source-rooted path only when the
exec-rooted path contains none. When that lookup yields a suite `nested` other
than the current one, with sub-path `nestedSubPath`, `get_tests_in_suite`
returns exactly `get_tests_in_suite` on `nested` and `nestedSubPath`, run from
the state the lookup leaves; the entries `rest` after `c` play no part. -/
theorem get_tests_in_suite_nested_suite (env : Env) (fuel : Nat)
    (testSuite nested : TestSuitePointer) (P nestedSubPath : List String) (s s1 s2 : State)
    (lc : TestingConfigPointer) (skipped rest : List String) (c : String)
    (hex : env.fs.fs_exists (testSuite.obj.getSourcePath P) = true)
    (hdir : env.fs.is_directory (testSuite.obj.getSourcePath P) = true)
    (hlc : get_local_config env testSuite P s = .ok (lc, s1))
    (hfmt : lc.obj.testFormat = none)
    (hlist : env.fs.directory_iterator (testSuite.obj.getSourcePath P) = skipped ++ c :: rest)
    (hskip : ∀ f ∈ skipped, skipped_by_name lc f = true ∨
      env.fs.is_directory ((testSuite.obj.getSourcePath P).append_name f) = false)
    (hc : skipped_by_name lc c = false)
    (hcd : env.fs.is_directory ((testSuite.obj.getSourcePath P).append_name c) = true)
    (hcfg : (dir_contains_test_suite env.fs (testSuite.obj.getExecPath (P ++ [c]))
        env.litConfig).isSome = true ∨
      (dir_contains_test_suite env.fs ((testSuite.obj.getSourcePath P).append_name c)
        env.litConfig).isSome = true)
    (hlook :
      (if (dir_contains_test_suite env.fs (testSuite.obj.getExecPath (P ++ [c]))
          env.litConfig).isSome then
        get_test_suite env (testSuite.obj.getExecPath (P ++ [c])) s1
      else get_test_suite env ((testSuite.obj.getSourcePath P).append_name c) s1) =
        .ok ((some nested, nestedSubPath), s2))
    (hne : nested.addr ≠ testSuite.addr) :
    get_tests_in_suite env (fuel + 1) testSuite P s =
      get_tests_in_suite env fuel nested nestedSubPath s2 := by
  rw [get_tests_in_suite_directory env fuel testSuite P s s1 lc hex hdir hlc hfmt, hlist,
    get_tests_in_suite_loop_skip env _ testSuite P lc _ skipped (c :: rest) s1 hskip]
  exact get_tests_in_suite_loop_nested env _ testSuite nested P nestedSubPath lc _ c rest s1 s2
    hc hcd (by rw [nested_suite_lookup_found env _ _ s1 hcfg]; exact hlook) hne

/-- Witness of C9: the suite of `/root` in `nested_suite_env`, whose entry
`Output` is skipped and whose child `inner` is a suite of its own. -/
theorem get_tests_in_suite_nested_suite_witness :
    get_tests_in_suite nested_suite_env 2 root_suite [] root_state =
      get_tests_in_suite nested_suite_env 1 inner_suite [] inner_state :=
  get_tests_in_suite_nested_suite nested_suite_env 1 root_suite inner_suite [] [] root_state
    root_state inner_state root_suite.obj.config ["Output"] ["lit.cfg"] "inner"
    (by decide) (by decide) (by decide) (by decide) (by decide) (by decide) (by decide)
    (by decide) (Or.inl (by decide)) (by decide) (by decide)

/-- C10: in the fallback directory walk, let `c` be a child directory that is
not skipped by name and whose nested-suite lookup (exec-rooted path first,
then source-rooted path) yields a suite with the address of the current suite.
Then the loop passes over `c`: at whatever iteration it is reached, and
whatever the recursive call would compute, the loop on `c` and the entries
after it is the loop on the entries after it, from the state the lookup
leaves; and when `c` is the first surviving child of the directory,
`get_tests_in_suite` is that loop on the entries after `c`. -/
theorem get_tests_in_suite_skips_own_suite (env : Env) (testSuite sub : TestSuitePointer)
    (P subPath : List String) (s1 s2 : State) (lc : TestingConfigPointer) (c : String)
    (hc : skipped_by_name lc c = false)
    (hcd : env.fs.is_directory ((testSuite.obj.getSourcePath P).append_name c) = true)
    (hcfg : (dir_contains_test_suite env.fs (testSuite.obj.getExecPath (P ++ [c]))
        env.litConfig).isSome = true ∨
      (dir_contains_test_suite env.fs ((testSuite.obj.getSourcePath P).append_name c)
        env.litConfig).isSome = true)
    (hlook :
      (if (dir_contains_test_suite env.fs (testSuite.obj.getExecPath (P ++ [c]))
          env.litConfig).isSome then
        get_test_suite env (testSuite.obj.getExecPath (P ++ [c])) s1
      else get_test_suite env ((testSuite.obj.getSourcePath P).append_name c) s1) =
        .ok ((some sub, subPath), s2))
    (heq : sub.addr = testSuite.addr) :
    (∀ (recurse : TestSuitePointer → List String → State → Except Failure (TestList × State))
        (rest : List String),
      get_tests_in_suite_loop env recurse testSuite P lc (testSuite.obj.getSourcePath P)
          (c :: rest) s1 =
        get_tests_in_suite_loop env recurse testSuite P lc (testSuite.obj.getSourcePath P)
          rest s2) ∧
    (∀ (fuel : Nat) (s : State) (skipped rest : List String),
      env.fs.fs_exists (testSuite.obj.getSourcePath P) = true →
      env.fs.is_directory (testSuite.obj.getSourcePath P) = true →
      get_local_config env testSuite P s = .ok (lc, s1) →
      lc.obj.testFormat = none →
      env.fs.directory_iterator (testSuite.obj.getSourcePath P) = skipped ++ c :: rest →
      (∀ f ∈ skipped, skipped_by_name lc f = true ∨
        env.fs.is_directory ((testSuite.obj.getSourcePath P).append_name f) = false) →
      get_tests_in_suite env (fuel + 1) testSuite P s =
        get_tests_in_suite_loop env (get_tests_in_suite env fuel) testSuite P lc
          (testSuite.obj.getSourcePath P) rest s2) := by
  have hloop : ∀ (recurse : TestSuitePointer → List String → State →
        Except Failure (TestList × State)) (rest : List String),
      get_tests_in_suite_loop env recurse testSuite P lc (testSuite.obj.getSourcePath P)
          (c :: rest) s1 =
        get_tests_in_suite_loop env recurse testSuite P lc (testSuite.obj.getSourcePath P)
          rest s2 := fun recurse rest =>
    get_tests_in_suite_loop_same env recurse testSuite sub P subPath lc _ c rest s1 s2 hc hcd
      (by rw [nested_suite_lookup_found env _ _ s1 hcfg]; exact hlook) heq
  refine ⟨hloop, ?_⟩
  intro fuel s skipped rest hex hdir hlc hfmt hlist hskip
  rw [get_tests_in_suite_directory env fuel testSuite P s s1 lc hex hdir hlc hfmt, hlist,
    get_tests_in_suite_loop_skip env _ testSuite P lc _ skipped (c :: rest) s1 hskip]
  exact hloop _ rest

/-- Witness of C10: the suite of `/p/r` in `exec_inside_env`; the exec-rooted
path of its child `r` is the suite root, so the lookup gives the suite itself
and the child is passed over. -/
theorem get_tests_in_suite_skips_own_suite_witness :
    get_tests_in_suite exec_inside_env 2 exec_inside_suite [] exec_inside_state =
      get_tests_in_suite_loop exec_inside_env (get_tests_in_suite exec_inside_env 1)
        exec_inside_suite [] exec_inside_suite.obj.config
        (exec_inside_suite.obj.getSourcePath []) ["lit.cfg"] exec_inside_state :=
  (get_tests_in_suite_skips_own_suite exec_inside_env exec_inside_suite exec_inside_suite [] []
    exec_inside_state exec_inside_state exec_inside_suite.obj.config "r"
    (by decide) (by decide) (Or.inl (by decide)) (by decide) (by decide)).2
    1 exec_inside_state [] ["lit.cfg"]
    (by decide) (by decide) (by decide) (by decide) (by decide) (by decide)

/-! ## The test enumerator: claims C12 and C13 -/

theorem removed_child_iff (env : Env) (lc : TestingConfigPointer) (sourcePath : FsPath)
    (filename : String) :
    removed_child env lc sourcePath filename = true ↔
      (skipped_by_name lc filename = true ∨
        env.fs.is_directory (sourcePath.append_name filename) = false) := by
  simp [removed_child, skipped_by_name, or_assoc]

/-- The loop does not see the children that are left out. -/
theorem get_tests_in_suite_loop_filter (env : Env)
    (recurse : TestSuitePointer → List String → State → Except Failure (TestList × State))
    (testSuite : TestSuitePointer) (P : List String) (lc : TestingConfigPointer)
    (sourcePath : FsPath) (entries : List String) :
    ∀ s : State,
      get_tests_in_suite_loop env recurse testSuite P lc sourcePath entries s =
        get_tests_in_suite_loop env recurse testSuite P lc sourcePath
          (entries.filter (fun f => !removed_child env lc sourcePath f)) s := by
  induction entries with
  | nil => intro s; rfl
  | cons f rest ih =>
    intro s
    by_cases hrem : removed_child env lc sourcePath f = true
    · have hskip := (removed_child_iff env lc sourcePath f).mp hrem
      have h1 := get_tests_in_suite_loop_skip env recurse testSuite P lc sourcePath [f] rest s
        (fun g hg => by
          have : g = f := by simpa using hg
          rw [this]; exact hskip)
      have hfil : (f :: rest).filter (fun f => !removed_child env lc sourcePath f) =
          rest.filter (fun f => !removed_child env lc sourcePath f) := by
        simp [List.filter_cons, hrem]
      rw [hfil, ← ih s]
      exact h1
    · have hnot : ¬ (skipped_by_name lc f = true ∨
          env.fs.is_directory (sourcePath.append_name f) = false) :=
        fun h => hrem ((removed_child_iff env lc sourcePath f).mpr h)
      have hc : skipped_by_name lc f = false := by
        cases h : skipped_by_name lc f
        · rfl
        · exact absurd (Or.inl h) hnot
      have hcd : env.fs.is_directory (sourcePath.append_name f) = true := by
        cases h : env.fs.is_directory (sourcePath.append_name f)
        · exact absurd (Or.inr h) hnot
        · rfl
      have hfil : (f :: rest).filter (fun f => !removed_child env lc sourcePath f) =
          f :: rest.filter (fun f => !removed_child env lc sourcePath f) := by
        simp [List.filter_cons, hrem]
      rw [hfil, get_tests_in_suite_loop, get_tests_in_suite_loop]
      simp only [hc, hcd, Bool.not_true, Bool.false_eq_true, if_false]
      cases nested_suite_lookup env (testSuite.obj.getExecPath (P ++ [f]))
          (sourcePath.append_name f) s with
      | error e => rfl
      | ok v =>
        obtain ⟨⟨subTs, subpathInSuite⟩, s1⟩ := v
        cases subTs with
        | none => rfl
        | some sub =>
          by_cases heq : sub.addr = testSuite.addr
          · simp only [heq, if_true]
            exact ih s1
          · simp only [heq, if_false]

/-- C12: in the fallback directory walk the children named `Output`, `.svn` or
`.git`, the children whose base name is in the exclusion set of the local
configuration, and the children that are not directories play no part: for
every listing, every recursive function and every state, the loop on the
listing is the loop on the listing with those children removed, so they are
neither recursed into nor looked up as nested suites; and `get_tests_in_suite`
on an existing directory whose local configuration has no test format is the
loop on the listing of the directory with those children removed. -/
theorem get_tests_in_suite_ignores_removed (env : Env) (testSuite : TestSuitePointer)
    (P : List String) (lc : TestingConfigPointer) :
    (∀ (recurse : TestSuitePointer → List String → State → Except Failure (TestList × State))
        (entries : List String) (s : State),
      get_tests_in_suite_loop env recurse testSuite P lc (testSuite.obj.getSourcePath P)
          entries s =
        get_tests_in_suite_loop env recurse testSuite P lc (testSuite.obj.getSourcePath P)
          (entries.filter (fun f => !removed_child env lc (testSuite.obj.getSourcePath P) f))
          s) ∧
    (∀ (fuel : Nat) (s s1 : State),
      env.fs.fs_exists (testSuite.obj.getSourcePath P) = true →
      env.fs.is_directory (testSuite.obj.getSourcePath P) = true →
      get_local_config env testSuite P s = .ok (lc, s1) →
      lc.obj.testFormat = none →
      get_tests_in_suite env (fuel + 1) testSuite P s =
        get_tests_in_suite_loop env (get_tests_in_suite env fuel) testSuite P lc
          (testSuite.obj.getSourcePath P)
          ((env.fs.directory_iterator (testSuite.obj.getSourcePath P)).filter
            (fun f => !removed_child env lc (testSuite.obj.getSourcePath P) f)) s1) := by
  refine ⟨fun recurse entries s =>
    get_tests_in_suite_loop_filter env recurse testSuite P lc _ entries s, ?_⟩
  intro fuel s s1 hex hdir hlc hfmt
  rw [get_tests_in_suite_directory env fuel testSuite P s s1 lc hex hdir hlc hfmt]
  exact get_tests_in_suite_loop_filter env _ testSuite P lc _ _ s1

/-- Witness of C12: the root of `nested_suite_env` lists `Output`, `inner` and
`lit.cfg`, of which only `inner` is left. -/
theorem get_tests_in_suite_ignores_removed_witness :
    get_tests_in_suite nested_suite_env 2 root_suite [] root_state =
      get_tests_in_suite_loop nested_suite_env (get_tests_in_suite nested_suite_env 1)
        root_suite [] root_suite.obj.config (root_suite.obj.getSourcePath [])
        ((nested_suite_env.fs.directory_iterator (root_suite.obj.getSourcePath [])).filter
          (fun f => !removed_child nested_suite_env root_suite.obj.config
            (root_suite.obj.getSourcePath []) f)) root_state ∧
      (nested_suite_env.fs.directory_iterator (root_suite.obj.getSourcePath [])).filter
          (fun f => !removed_child nested_suite_env root_suite.obj.config
            (root_suite.obj.getSourcePath []) f) = ["inner"] :=
  ⟨(get_tests_in_suite_ignores_removed nested_suite_env root_suite []
      root_suite.obj.config).2 1 root_state root_state
      (by decide) (by decide) (by decide) (by decide), by decide⟩

theorem choose_config_file_with_listing (env : Env) (listing : FsPath → List String)
    (dir : FsPath) (names : List String) :
    choose_config_file_from_dir (with_listing env listing).fs dir names =
      choose_config_file_from_dir env.fs dir names := by
  induction names with
  | nil => rfl
  | cons n rest ih =>
    simp only [choose_config_file_from_dir, ih]
    rfl

/-- The local configuration does not depend on the directory listing. -/
theorem get_local_config_fuel_with_listing (env : Env) (listing : FsPath → List String)
    (testSuite : TestSuitePointer) :
    ∀ (fuel : Nat) (P : List String) (s : State),
      get_local_config_fuel (with_listing env listing) testSuite fuel P s =
        get_local_config_fuel env testSuite fuel P s := by
  intro fuel
  induction fuel with
  | zero => intro P s; rfl
  | succ n ih =>
    intro P s
    rw [get_local_config_fuel, get_local_config_fuel]
    simp only [ih, choose_config_file_with_listing]
    rfl

/-- The local configuration is computed without touching the cache. -/
theorem local_config_level_cache (env : Env) (testSuite : TestSuitePointer)
    (current : TestingConfigPointer × State) (pre : List String) :
    (local_config_level env testSuite current pre).2.cache = current.2.cache := by
  unfold local_config_level
  cases choose_config_file_from_dir env.fs (testSuite.obj.getSourcePath pre)
      env.litConfig.localConfigNames with
  | none => rfl
  | some cfgPath =>
    simp only [debug_note]
    split <;> rfl

theorem local_config_foldl_cache (env : Env) (testSuite : TestSuitePointer)
    (l : List (List String)) :
    ∀ current : TestingConfigPointer × State,
      (l.foldl (local_config_level env testSuite) current).2.cache = current.2.cache := by
  induction l with
  | nil => intro current; rfl
  | cons pre rest ih =>
    intro current
    rw [List.foldl_cons, ih, local_config_level_cache]

theorem get_local_config_cache (env : Env) (testSuite : TestSuitePointer) (P : List String)
    (s s1 : State) (lc : TestingConfigPointer)
    (h : get_local_config env testSuite P s = .ok (lc, s1)) : s1.cache = s.cache := by
  rw [get_local_config_eq_walk] at h
  injection h with h
  have h2 := local_config_foldl_cache env testSuite P.inits (testSuite.obj.config, s)
  unfold local_config_walk at h
  rw [h] at h2
  exact h2

/-- C13: when the source path of `P` is an existing directory and the local
configuration `lc` that `get_local_config` gives for `P` carries a test format,
`get_tests_in_suite` returns exactly the listing of that format for the suite,
`P` and `lc`, in the state `get_local_config` leaves. It makes no nested-suite
lookup, the cache being as before the call, and no directory walk: the result
is the same whatever the directories list. -/
theorem get_tests_in_suite_delegates_to_format (env : Env) (fuel : Nat)
    (testSuite : TestSuitePointer) (P : List String) (s s1 : State)
    (lc : TestingConfigPointer) (format : Nat)
    (hex : env.fs.fs_exists (testSuite.obj.getSourcePath P) = true)
    (hdir : env.fs.is_directory (testSuite.obj.getSourcePath P) = true)
    (hlc : get_local_config env testSuite P s = .ok (lc, s1))
    (hfmt : lc.obj.testFormat = some format) :
    get_tests_in_suite env (fuel + 1) testSuite P s =
        .ok (env.getTestsInDirectory format testSuite P lc, s1) ∧
      s1.cache = s.cache ∧
      ∀ listing : FsPath → List String,
        get_tests_in_suite (with_listing env listing) (fuel + 1) testSuite P s =
          .ok (env.getTestsInDirectory format testSuite P lc, s1) := by
  refine ⟨?_, get_local_config_cache env testSuite P s s1 lc hlc, ?_⟩
  · rw [get_tests_in_suite]
    simp only [hex, hdir, hlc, hfmt, Bool.not_true, Bool.false_eq_true, if_false]
  · intro listing
    have hlc2 : get_local_config (with_listing env listing) testSuite P s = .ok (lc, s1) := by
      unfold get_local_config
      rw [get_local_config_fuel_with_listing]
      exact hlc
    have hex2 : (with_listing env listing).fs.fs_exists (testSuite.obj.getSourcePath P) = true :=
      hex
    have hdir2 :
        (with_listing env listing).fs.is_directory (testSuite.obj.getSourcePath P) = true :=
      hdir
    rw [get_tests_in_suite]
    simp only [hex2, hdir2, hlc2, hfmt, Bool.not_true, Bool.false_eq_true, if_false]
    rfl

/-- Witness of C13: the directory `sub` of `format_dir_env`, whose local
configuration file selects a test format. -/
theorem get_tests_in_suite_delegates_to_format_witness :
    get_tests_in_suite format_dir_env 1 root_suite ["sub"] root_state =
        .ok (format_dir_env.getTestsInDirectory 0 root_suite ["sub"]
          { addr := 2, obj := { demo_defaults with
              name := "root", excludes := ["skipme"], testFormat := some 0 } },
          { root_state with nextAddr := 3 }) ∧
      ({ root_state with nextAddr := 3 } : State).cache = root_state.cache :=
  have h := get_tests_in_suite_delegates_to_format format_dir_env 0 root_suite ["sub"]
    root_state { root_state with nextAddr := 3 }
    { addr := 2, obj := { demo_defaults with
        name := "root", excludes := ["skipme"], testFormat := some 0 } } 0
    (by decide) (by decide) (by decide) (by decide)
  ⟨h.1, h.2.1⟩

/-! ## Configuration files: claims C14 and C15 -/

theorem choose_config_file_eq_find (fs : FileSystem) (dir : FsPath) (names : List String) :
    choose_config_file_from_dir fs dir names =
      (names.find? (fun n => fs.fs_exists (dir.append_name n))).map dir.append_name := by
  induction names with
  | nil => rfl
  | cons n rest ih =>
    by_cases h : fs.fs_exists (dir.append_name n) = true
    · simp [choose_config_file_from_dir, List.find?_cons, h]
    · simp [choose_config_file_from_dir, List.find?_cons, h, ih]

/-- C14: for every directory and every two lists of candidate names,
`dir_contains_test_suite` returns the path of the first name of the
site-configuration list, in list order, whose file exists in the directory;
when no such name exists it returns the path of the first name of the
suite-configuration list whose file exists; and it returns nothing exactly
when no candidate of either list exists in the directory. -/
theorem dir_contains_test_suite_first_match (fs : FileSystem) (path : FsPath)
    (litConfig : LitConfig) :
    dir_contains_test_suite fs path litConfig =
        (match litConfig.siteConfigNames.find? (fun n => fs.fs_exists (path.append_name n)) with
        | some n => some (path.append_name n)
        | none =>
          (litConfig.configNames.find? (fun n => fs.fs_exists (path.append_name n))).map
            path.append_name) ∧
      (dir_contains_test_suite fs path litConfig = none ↔
        ∀ n ∈ litConfig.siteConfigNames ++ litConfig.configNames,
          fs.fs_exists (path.append_name n) = false) := by
  have h1 : dir_contains_test_suite fs path litConfig =
      (match litConfig.siteConfigNames.find? (fun n => fs.fs_exists (path.append_name n)) with
      | some n => some (path.append_name n)
      | none =>
        (litConfig.configNames.find? (fun n => fs.fs_exists (path.append_name n))).map
          path.append_name) := by
    unfold dir_contains_test_suite
    rw [choose_config_file_eq_find, choose_config_file_eq_find]
    cases litConfig.siteConfigNames.find? (fun n => fs.fs_exists (path.append_name n)) <;> rfl
  refine ⟨h1, ?_⟩
  rw [h1]
  constructor
  · intro h n hn
    cases hs : litConfig.siteConfigNames.find? (fun n => fs.fs_exists (path.append_name n)) with
    | some m => simp [hs] at h
    | none =>
      simp only [hs, Option.map_eq_none'] at h
      rw [List.find?_eq_none] at hs h
      rcases List.mem_append.mp hn with hm | hm
      · simpa using hs n hm
      · simpa using h n hm
  · intro h
    have hs : litConfig.siteConfigNames.find? (fun n => fs.fs_exists (path.append_name n)) =
        none := by
      rw [List.find?_eq_none]
      intro n hn
      simp [h n (List.mem_append.mpr (Or.inl hn))]
    have hc : litConfig.configNames.find? (fun n => fs.fs_exists (path.append_name n)) =
        none := by
      rw [List.find?_eq_none]
      intro n hn
      simp [h n (List.mem_append.mpr (Or.inr hn))]
    simp [hs, hc]

/-- With a `config_map` table the file to load is the entry of the table for
the canonical path of the configuration file found, and that canonical path
when the table has no entry for it. -/
theorem resolve_config_path_with_table (fs : FileSystem) (configMap : List (FsPath × FsPath))
    (cfgPathOpt cfgPath : FsPath) (hc : fs.canonical cfgPathOpt = some cfgPath) :
    resolve_config_path fs (.string_map configMap) cfgPathOpt =
      .ok ((string_map_find configMap cfgPath).getD cfgPath) := by
  simp only [resolve_config_path, hc]
  cases string_map_find configMap cfgPath <;> rfl

/-- C15, the code at failing inputs: the directory `/r` holds `lit.cfg`. With
the parameter map of `load_test_suite`, which has no `config_map` key,
resolving `/r` raises `std::out_of_range` and no suite is created. With a
`config_map` parameter that holds no value, the suite is created, but the file
loaded is the empty path and not `/r/lit.cfg`: the note of the load names the
empty path and the suite, named by the loader after the directory of the file
it is given, has the empty name instead of `r`. -/
theorem do_search_testsuit_without_config_map :
    dir_contains_test_suite nested_dirs_env.fs (abs_path ["r"]) nested_dirs_env.litConfig =
        some (abs_path ["r", "lit.cfg"]) ∧
      search_testsuit no_config_map_env (abs_path ["r"]) init_state = .error .out_of_range ∧
      (search_testsuit empty_config_map_env (abs_path ["r"]) init_state).map
          (fun v => (v.1.1.map (fun ts => ts.obj.name), v.2.notes)) =
        .ok (some "", [.loading_suite_config { rooted := false, comps := [] }]) ∧
      (search_testsuit nested_dirs_env (abs_path ["r"]) init_state).map
          (fun v => v.1.1.map (fun ts => ts.obj.name)) = .ok (some "r") :=
  ⟨by decide, by decide, by decide, by decide⟩

/-! ## End to end: claim C11 -/

/-- The loop at a surviving child for which no nested suite is found:
`subTs.value()` throws before the branch that recurses into the child. -/
theorem get_tests_in_suite_loop_no_nested (env : Env)
    (recurse : TestSuitePointer → List String → State → Except Failure (TestList × State))
    (testSuite : TestSuitePointer) (P subPath : List String) (lc : TestingConfigPointer)
    (sourcePath : FsPath) (c : String) (rest : List String) (s s1 : State)
    (hc : skipped_by_name lc c = false)
    (hcd : env.fs.is_directory (sourcePath.append_name c) = true)
    (hlook : nested_suite_lookup env (testSuite.obj.getExecPath (P ++ [c]))
      (sourcePath.append_name c) s = .ok ((none, subPath), s1)) :
    get_tests_in_suite_loop env recurse testSuite P lc sourcePath (c :: rest) s =
      .error .bad_optional_access := by
  rw [get_tests_in_suite_loop]
  simp only [hc, hcd, hlook, Bool.not_true, Bool.false_eq_true, if_false]

/-- In `single_test_env`, `get_tests` on the suite root returns for no
recursion depth. -/
theorem get_tests_single_test_env (fuel : Nat) :
    get_tests single_test_env fuel (abs_path ["root"]) init_state =
      .error (if fuel = 0 then .fuel else .bad_optional_access) := by
  have hts : get_test_suite single_test_env (abs_path ["root"]) init_state =
      .ok ((some root_suite, []), root_state) := by decide
  have hnote : ∀ msg, debug_note single_test_env.litConfig msg root_state = root_state :=
    fun _ => rfl
  cases fuel with
  | zero =>
    simp only [get_tests, hts, hnote, get_tests_in_suite]
    rfl
  | succ n =>
    have hwalk : get_tests_in_suite single_test_env (n + 1) root_suite [] root_state =
        .error .bad_optional_access := by
      rw [get_tests_in_suite_directory single_test_env n root_suite [] root_state root_state
        root_suite.obj.config (by decide) (by decide) (by decide) (by decide)]
      have hl : single_test_env.fs.directory_iterator (root_suite.obj.getSourcePath []) =
          ["sub", "lit.cfg"] := by decide
      rw [hl]
      exact get_tests_in_suite_loop_no_nested single_test_env _ root_suite [] []
        root_suite.obj.config _ "sub" ["lit.cfg"] root_state root_state
        (by decide) (by decide) (by decide)
    simp only [get_tests, hts, hnote, hwalk]
    simp

/-- C11, as stated, fails: in `single_test_env` (the suite root `/root` with
`lit.cfg` naming the suite `root`, no test format, and the only child
directory `sub` holding the one file `t1.txt`), for no recursion depth does
`get_tests` on `/root` return the suite named `root` with exactly one test of
path-in-suite `["sub", "t1.txt"]`. -/
theorem get_tests_end_to_end_counterexample :
    ¬ ∃ (fuel : Nat) (ts : TestSuitePointer) (t : Test) (s1 : State),
      get_tests single_test_env fuel (abs_path ["root"]) init_state =
          .ok ((some ts, [t]), s1) ∧
        ts.obj.name = "root" ∧ t.pathInSuite = ["sub", "t1.txt"] := by
  rintro ⟨fuel, ts, t, s1, h, _, _⟩
  rw [get_tests_single_test_env] at h
  cases h

/-- C11, amended: in `single_test_env`, `get_test_suite` on the input `/root`
yields the suite named `root` with an empty path-in-suite; the directory walk
creates no test for the file `t1.txt`: the listing of `sub` is that one file,
and the loop passes over it, a non-directory entry, without a lookup or a
recursive call, whatever the local configuration and the recursive function
are; and for no recursion depth does `get_tests` on `/root` return a list that
holds a test of path-in-suite `["sub", "t1.txt"]`. -/
theorem get_tests_end_to_end :
    get_test_suite single_test_env (abs_path ["root"]) init_state =
        .ok ((some root_suite, []), root_state) ∧
      root_suite.obj.name = "root" ∧
      single_test_env.fs.directory_iterator (root_suite.obj.getSourcePath ["sub"]) =
        ["t1.txt"] ∧
      (∀ (recurse : TestSuitePointer → List String → State → Except Failure (TestList × State))
          (lc : TestingConfigPointer) (s : State),
        get_tests_in_suite_loop single_test_env recurse root_suite ["sub"] lc
            (root_suite.obj.getSourcePath ["sub"]) ["t1.txt"] s =
          get_tests_in_suite_loop single_test_env recurse root_suite ["sub"] lc
            (root_suite.obj.getSourcePath ["sub"]) [] s) ∧
      ¬ ∃ (fuel : Nat) (r : Option TestSuitePointer × TestList) (s1 : State) (t : Test),
        get_tests single_test_env fuel (abs_path ["root"]) init_state = .ok (r, s1) ∧
          t ∈ r.2 ∧ t.pathInSuite = ["sub", "t1.txt"] := by
  refine ⟨by decide, by decide, by decide, ?_, ?_⟩
  · intro recurse lc s
    exact get_tests_in_suite_loop_skip single_test_env recurse root_suite ["sub"] lc _
      ["t1.txt"] [] s (fun f hf => by
        have : f = "t1.txt" := by simpa using hf
        rw [this]
        exact Or.inr (by decide))
  · rintro ⟨fuel, r, s1, t, h, _, _⟩
    rw [get_tests_single_test_env] at h
    cases h

/-! ## The input expander: claims C16 to C19 -/

set_option maxRecDepth 100000 in
/-- C16, the code at a failing input: the inputs are expanded in order, a
plain input kept and `@/list.txt` replaced by the two non-empty lines of the
file with its empty line dropped; but for `/long.txt`, whose first line has 256
characters and whose second line is `/root`, `@/long.txt` expands to no input
at all: `getline` fails on the line that does not fit the 256 characters of
the buffer, which ends the loop, so that line and every line after it are
lost. -/
theorem expand_inputs_long_line :
    expand_inputs list_file_env.fs ["/other", "@/list.txt"] [] =
        .ok ["/other", "/other", "/root"] ∧
      list_file_env.fs.read_file (FsPath.of_string "/long.txt") = some long_list_text ∧
      expand_inputs list_file_env.fs ["@/long.txt"] [] = .ok [] :=
  ⟨by decide, by decide, by decide⟩

/-- One step of the second loop: the entry `get_tests` returns is added, and
the comparison of the two lengths never succeeds. -/
theorem find_tests_loop_cons (env : Env) (fuel : Nat) (input : String) (rest : List String)
    (tests : List (Option TestSuitePointer × TestList)) (s : State) :
    find_tests_loop env fuel (input :: rest) tests s =
      match get_tests env fuel (FsPath.of_string input) s with
      | .error e => .error e
      | .ok (r, s1) => find_tests_loop env fuel rest (tests ++ [r]) s1 := by
  rw [find_tests_loop]
  cases get_tests env fuel (FsPath.of_string input) s with
  | error e => rfl
  | ok v =>
    obtain ⟨r, s1⟩ := v
    have hne : ¬ tests.length = (tests ++ [r]).length := by
      simp [List.length_append]
    simp only [hne, if_false]

/-- C17, the code at a failing input: in `empty_format_env` the input `/root`
resolves to the suite `root_suite` and its test sequence is empty, yet
`find_tests_for_inputs` returns with no warning at all: the list whose length
is compared holds one entry per input, not the tests, so the comparison of
line 298 never succeeds. -/
theorem find_tests_for_inputs_no_empty_warning :
    (find_tests_for_inputs empty_format_env 2 ["/root"] init_state).result =
        some [(some root_suite, [])] ∧
      (find_tests_for_inputs empty_format_env 2 ["/root"] init_state).final_state.map
          (fun s => s.warnings) = some [] :=
  ⟨by decide, by decide⟩

/-- The list the second loop returns is the list it started from followed by
one entry per input. -/
theorem find_tests_loop_entries (env : Env) (fuel : Nat) (inputs : List String) :
    ∀ (tests results : List (Option TestSuitePointer × TestList)) (s s1 : State),
      find_tests_loop env fuel inputs tests s = .ok (results, s1) →
      ∃ entries, results = tests ++ entries ∧ entries.length = inputs.length ∧
        entries_match env fuel inputs s entries s1 := by
  induction inputs with
  | nil =>
    intro tests results s s1 h
    simp only [find_tests_loop] at h
    injection h with h
    injection h with h1 h2
    exact ⟨[], by simp [h1], rfl, by simp [entries_match, h2]⟩
  | cons input rest ih =>
    intro tests results s s1 h
    rw [find_tests_loop_cons] at h
    cases hg : get_tests env fuel (FsPath.of_string input) s with
    | error e => simp [hg] at h
    | ok v =>
      obtain ⟨r, s2⟩ := v
      simp only [hg] at h
      obtain ⟨entries, he, hl, hm⟩ := ih (tests ++ [r]) results s2 s1 h
      refine ⟨r :: entries, by simp [he], by simp [hl], ?_⟩
      exact ⟨s2, hg, hm⟩

/-- The end of `find_tests_for_inputs` once both loops have run. -/
theorem find_tests_for_inputs_of_loop (env : Env) (fuel : Nat) (inputs actualInputs : List String)
    (s s1 : State) (tests : List (Option TestSuitePointer × TestList))
    (he : expand_inputs env.fs inputs [] = .ok actualInputs)
    (hl : find_tests_loop env fuel actualInputs [] { s with cache := [] } = .ok (tests, s1)) :
    find_tests_for_inputs env fuel inputs s =
      if s1.numErrors > 0 then .exited 2 s1 else .returned tests s1 := by
  simp only [find_tests_for_inputs, he, hl]

/-- When one of the loops is left by an exception, so is
`find_tests_for_inputs`. -/
theorem find_tests_for_inputs_raised (env : Env) (fuel : Nat) (inputs : List String)
    (s : State)
    (h : (∃ e, expand_inputs env.fs inputs [] = .error e) ∨
      ∃ actualInputs e, expand_inputs env.fs inputs [] = .ok actualInputs ∧
        find_tests_loop env fuel actualInputs [] { s with cache := [] } = .error e) :
    ∃ e, find_tests_for_inputs env fuel inputs s = .raised e := by
  rcases h with ⟨e, he⟩ | ⟨a, e, he, hl⟩
  · exact ⟨e, by simp only [find_tests_for_inputs, he]⟩
  · exact ⟨e, by simp only [find_tests_for_inputs, he, hl]⟩

/-- The outcome of `find_tests_for_inputs`, by cases on the two loops. -/
theorem find_tests_for_inputs_cases (env : Env) (fuel : Nat) (inputs : List String)
    (s : State) :
    (∃ e, find_tests_for_inputs env fuel inputs s = .raised e) ∨
      ∃ actualInputs tests s1,
        expand_inputs env.fs inputs [] = .ok actualInputs ∧
        find_tests_loop env fuel actualInputs [] { s with cache := [] } = .ok (tests, s1) ∧
        tests.length = actualInputs.length ∧
        find_tests_for_inputs env fuel inputs s =
          if s1.numErrors > 0 then .exited 2 s1 else .returned tests s1 := by
  cases he : expand_inputs env.fs inputs [] with
  | error e => exact Or.inl (find_tests_for_inputs_raised env fuel inputs s (Or.inl ⟨e, he⟩))
  | ok a =>
    cases hl : find_tests_loop env fuel a [] { s with cache := [] } with
    | error e =>
      exact Or.inl (find_tests_for_inputs_raised env fuel inputs s (Or.inr ⟨a, e, he, hl⟩))
    | ok v =>
      obtain ⟨t, s0⟩ := v
      obtain ⟨entries, hent, hlen, _⟩ := find_tests_loop_entries env fuel a [] t _ s0 hl
      refine Or.inr ⟨a, t, s0, rfl, hl, ?_,
        find_tests_for_inputs_of_loop env fuel inputs a s s0 t he hl⟩
      rw [hent]
      simpa using hlen

/-- When `get_tests` returns for every input in turn, the second loop returns
the list it started from followed by those results, in the last state. -/
theorem find_tests_loop_of_entries (env : Env) (fuel : Nat) (inputs : List String) :
    ∀ (tests entries : List (Option TestSuitePointer × TestList)) (s s1 : State),
      entries_match env fuel inputs s entries s1 →
      find_tests_loop env fuel inputs tests s = .ok (tests ++ entries, s1) := by
  induction inputs with
  | nil =>
    intro tests entries s s1 h
    cases entries with
    | nil =>
      simp only [entries_match] at h
      simp only [find_tests_loop, h, List.append_nil]
    | cons r rs => simp only [entries_match] at h
  | cons input rest ih =>
    intro tests entries s s1 h
    cases entries with
    | nil => simp only [entries_match] at h
    | cons r rs =>
      simp only [entries_match] at h
      obtain ⟨s2, hg, hm⟩ := h
      rw [find_tests_loop_cons, hg]
      simp only []
      rw [ih (tests ++ [r]) rs s2 s1 hm, List.append_assoc]
      rfl

/-- The second loop returns a list exactly when `get_tests` returns for every
input in turn, and the list holds those results. -/
theorem find_tests_loop_iff (env : Env) (fuel : Nat) (inputs : List String)
    (tests : List (Option TestSuitePointer × TestList)) (s s1 : State) :
    find_tests_loop env fuel inputs [] s = .ok (tests, s1) ↔
      entries_match env fuel inputs s tests s1 := by
  constructor
  · intro h
    obtain ⟨entries, he, _, hm⟩ := find_tests_loop_entries env fuel inputs [] tests s s1 h
    rw [List.nil_append] at he
    rw [he]
    exact hm
  · intro h
    have h2 := find_tests_loop_of_entries env fuel inputs [] tests s s1 h
    rw [List.nil_append] at h2
    exact h2

/-- The second loop is left by an exception exactly when `get_tests` throws it
for some input, having returned for every input before that one. -/
theorem find_tests_loop_error (env : Env) (fuel : Nat) (inputs : List String) :
    ∀ (tests : List (Option TestSuitePointer × TestList)) (s : State) (e : Failure),
      find_tests_loop env fuel inputs tests s = .error e ↔
        ∃ (before : List String) (x : String) (after : List String)
          (entries : List (Option TestSuitePointer × TestList)) (s2 : State),
          inputs = before ++ x :: after ∧ entries_match env fuel before s entries s2 ∧
          get_tests env fuel (FsPath.of_string x) s2 = .error e := by
  induction inputs with
  | nil =>
    intro tests s e
    constructor
    · intro h
      simp only [find_tests_loop] at h
      cases h
    · rintro ⟨before, x, after, _, _, hsplit, _, _⟩
      cases before <;> cases hsplit
  | cons input rest ih =>
    intro tests s e
    rw [find_tests_loop_cons]
    cases hg : get_tests env fuel (FsPath.of_string input) s with
    | error e1 =>
      constructor
      · intro h
        injection h with h
        subst h
        exact ⟨[], input, rest, [], s, rfl, by simp only [entries_match], hg⟩
      · rintro ⟨before, x, after, entries, s2, hsplit, hm, hx⟩
        cases before with
        | nil =>
          simp only [List.nil_append, List.cons.injEq] at hsplit
          obtain ⟨h1, _⟩ := hsplit
          subst h1
          cases entries with
          | nil =>
            simp only [entries_match] at hm
            subst hm
            rw [hg] at hx
            injection hx with hx
            rw [hx]
          | cons r rs => simp only [entries_match] at hm
        | cons b bs =>
          simp only [List.cons_append, List.cons.injEq] at hsplit
          obtain ⟨h1, _⟩ := hsplit
          subst h1
          cases entries with
          | nil => simp only [entries_match] at hm
          | cons r rs =>
            simp only [entries_match] at hm
            obtain ⟨s3, hg2, _⟩ := hm
            rw [hg] at hg2
            cases hg2
    | ok v =>
      obtain ⟨r, s1⟩ := v
      simp only []
      rw [ih (tests ++ [r]) s1 e]
      constructor
      · rintro ⟨before, x, after, entries, s2, hsplit, hm, hx⟩
        refine ⟨input :: before, x, after, r :: entries, s2, by rw [hsplit]; rfl, ?_, hx⟩
        simp only [entries_match]
        exact ⟨s1, hg, hm⟩
      · rintro ⟨before, x, after, entries, s2, hsplit, hm, hx⟩
        cases before with
        | nil =>
          simp only [List.nil_append, List.cons.injEq] at hsplit
          obtain ⟨h1, _⟩ := hsplit
          subst h1
          cases entries with
          | nil =>
            simp only [entries_match] at hm
            subst hm
            rw [hg] at hx
            cases hx
          | cons r1 rs => simp only [entries_match] at hm
        | cons b bs =>
          simp only [List.cons_append, List.cons.injEq] at hsplit
          obtain ⟨h1, h2⟩ := hsplit
          subst h1
          cases entries with
          | nil => simp only [entries_match] at hm
          | cons r1 rs =>
            simp only [entries_match] at hm
            obtain ⟨s3, hg2, hm2⟩ := hm
            rw [hg] at hg2
            injection hg2 with hg2
            injection hg2 with hr hs
            subst hs
            exact ⟨bs, x, after, rs, s2, h2, hm2, hx⟩

/-- C19: let `actualInputs` be the expanded inputs. `find_tests_for_inputs`
ends the process exactly when `get_tests` has been called on every expanded
input, in input order, each in the state the inputs before it left and each
returning its entry, and the error counter is greater than zero after the last
one; the status is then 2. It returns exactly when `get_tests` has been called
on every expanded input in the same way and the error counter is then zero,
and what it returns is the list of the entries `get_tests` returned, one per
input in input order. It neither exits nor returns, an exception leaving it,
exactly when the expansion throws or `get_tests` throws for some input after
returning for every input before it; so the process is never ended before
every input has been processed. -/
theorem find_tests_for_inputs_exit (env : Env) (fuel : Nat) (inputs : List String)
    (s : State) :
    (∀ (status : Nat) (s1 : State),
      find_tests_for_inputs env fuel inputs s = .exited status s1 ↔
        status = 2 ∧ ∃ actualInputs tests,
          expand_inputs env.fs inputs [] = .ok actualInputs ∧
          entries_match env fuel actualInputs { s with cache := [] } tests s1 ∧
          tests.length = actualInputs.length ∧ 0 < s1.numErrors) ∧
    (∀ (tests : List (Option TestSuitePointer × TestList)) (s1 : State),
      find_tests_for_inputs env fuel inputs s = .returned tests s1 ↔
        ∃ actualInputs,
          expand_inputs env.fs inputs [] = .ok actualInputs ∧
          entries_match env fuel actualInputs { s with cache := [] } tests s1 ∧
          s1.numErrors = 0) ∧
    (∀ e : Failure,
      find_tests_for_inputs env fuel inputs s = .raised e ↔
        (expand_inputs env.fs inputs [] = .error e ∨
          ∃ (actualInputs before : List String) (x : String) (after : List String)
            (entries : List (Option TestSuitePointer × TestList)) (s2 : State),
            expand_inputs env.fs inputs [] = .ok actualInputs ∧
            actualInputs = before ++ x :: after ∧
            entries_match env fuel before { s with cache := [] } entries s2 ∧
            get_tests env fuel (FsPath.of_string x) s2 = .error e)) := by
  refine ⟨?_, ?_, ?_⟩
  · intro status s1
    constructor
    · intro h
      rcases find_tests_for_inputs_cases env fuel inputs s with
        ⟨e, he⟩ | ⟨a, t, s0, he, hl, hlen, hv⟩
      · rw [he] at h; cases h
      · rw [hv] at h
        by_cases hn : s0.numErrors > 0
        · simp only [hn, if_true] at h
          injection h with h1 h2
          subst h1; subst h2
          exact ⟨rfl, a, t, he, (find_tests_loop_iff env fuel a t _ s0).mp hl, hlen, hn⟩
        · simp only [hn, if_false] at h
          cases h
    · rintro ⟨hs, a, t, ha, ht, _, hpos⟩
      rw [find_tests_for_inputs_of_loop env fuel inputs a s s1 t ha
        ((find_tests_loop_iff env fuel a t _ s1).mpr ht), hs]
      simp [hpos]
  · intro tests s1
    constructor
    · intro h
      rcases find_tests_for_inputs_cases env fuel inputs s with
        ⟨e, he⟩ | ⟨a, t, s0, he, hl, hlen, hv⟩
      · rw [he] at h; cases h
      · rw [hv] at h
        by_cases hn : s0.numErrors > 0
        · simp only [hn, if_true] at h
          cases h
        · simp only [hn, if_false] at h
          injection h with h1 h2
          subst h1; subst h2
          exact ⟨a, he, (find_tests_loop_iff env fuel a t _ s0).mp hl, by omega⟩
    · rintro ⟨a, ha, ht, hz⟩
      rw [find_tests_for_inputs_of_loop env fuel inputs a s s1 tests ha
        ((find_tests_loop_iff env fuel a tests _ s1).mpr ht)]
      simp [hz]
  · intro e
    constructor
    · intro h
      cases he : expand_inputs env.fs inputs [] with
      | error e1 =>
        simp only [find_tests_for_inputs, he] at h
        injection h with h
        subst h
        exact Or.inl rfl
      | ok a =>
        cases hl : find_tests_loop env fuel a [] { s with cache := [] } with
        | error e1 =>
          simp only [find_tests_for_inputs, he, hl] at h
          injection h with h
          subst h
          obtain ⟨before, x, after, entries, s2, hsplit, hm, hx⟩ :=
            (find_tests_loop_error env fuel a [] _ e1).mp hl
          exact Or.inr ⟨a, before, x, after, entries, s2, rfl, hsplit, hm, hx⟩
        | ok v =>
          obtain ⟨t, s0⟩ := v
          rw [find_tests_for_inputs_of_loop env fuel inputs a s s0 t he hl] at h
          by_cases hn : s0.numErrors > 0
          · simp only [hn, if_true] at h; cases h
          · simp only [hn, if_false] at h; cases h
    · rintro (he | ⟨a, before, x, after, entries, s2, he, hsplit, hm, hx⟩)
      · simp only [find_tests_for_inputs, he]
      · have hl := (find_tests_loop_error env fuel a [] { s with cache := [] } e).mpr
          ⟨before, x, after, entries, s2, hsplit, hm, hx⟩
        simp only [find_tests_for_inputs, he, hl]

/-- Witness of C19: in `failing_load_env` the loader reports an error, and the
call on the inputs `/other` and `/root` ends the process with status 2 in
`failing_load_state`; so `get_tests` was called on both inputs in turn, the
warning of the first one being in that state. -/
theorem find_tests_for_inputs_exit_witness :
    (2 : Nat) = 2 ∧ ∃ actualInputs tests,
      expand_inputs failing_load_env.fs ["/other", "/root"] [] = .ok actualInputs ∧
      entries_match failing_load_env 2 actualInputs { init_state with cache := [] } tests
        failing_load_state ∧
      tests.length = actualInputs.length ∧ 0 < failing_load_state.numErrors :=
  ((find_tests_for_inputs_exit failing_load_env 2 ["/other", "/root"] init_state).1 2
    failing_load_state).mp (by decide)

/-- Both ends of `find_tests_for_inputs` occur: with a loader that reports an
error the process exits with status 2, after both inputs have been processed
(the warning of the first one is there); without errors the list is
returned. -/
theorem find_tests_for_inputs_ends :
    (find_tests_for_inputs failing_load_env 2 ["/other", "/root"] init_state).exit_status =
        some 2 ∧
      (find_tests_for_inputs failing_load_env 2 ["/other", "/root"] init_state).final_state.map
          (fun s => (s.numErrors, s.warnings)) =
        some (2, [.unable_to_find_test_suite (abs_path ["other"])]) ∧
      (find_tests_for_inputs two_inputs_env 2 ["/other", "/root"] init_state).exit_status =
        none ∧
      ((find_tests_for_inputs two_inputs_env 2 ["/other", "/root"] init_state).result.map
          List.length) = some 2 :=
  ⟨by decide, by decide, by decide, by decide⟩

/-! ## The command executor: claim C20 -/

/-- C20: for every response of the process, when the timeout flag is set once
the timer has been joined, `execute_command` throws the timeout exception
carrying the output, the error output and the exit code of the response, and
so returns no normal result, whatever the exit code is, the number of the
interrupt signal included; and the flag is set only when `timeout > 0`. -/
theorem execute_command_timeout (timeout : Int) (threadStarts joinable : Bool)
    (response : Int × String × String)
    (hstart : start_timer timeout threadStarts = some joinable)
    (hflag : flag_after_join joinable = some true) :
    execute_command timeout threadStarts response =
        .timeout_exception timeout response.2.1 response.2.2 response.1 ∧
      0 < timeout ∧
      (∀ r : Int × String × String,
        report_response true timeout r = .timeout_exception timeout r.2.1 r.2.2 r.1) := by
  refine ⟨by simp [execute_command, hstart, hflag, report_response], ?_, fun r => by
    simp [report_response]⟩
  by_cases hpos : timeout > 0
  · exact hpos
  · simp only [start_timer, hpos, if_false] at hstart
    injection hstart with hj
    rw [← hj] at hflag
    simp [flag_after_join] at hflag

/-- Witness of C20: a timeout of 5 and a process whose exit code is the number
of the interrupt signal. -/
theorem execute_command_timeout_witness :
    execute_command 5 true (SIGINT, "out", "err") = .timeout_exception 5 "out" "err" SIGINT ∧
      (0 : Int) < 5 :=
  have h := execute_command_timeout 5 true true (SIGINT, "out", "err") (by decide) (by decide)
  ⟨h.1, h.2.1⟩

/-! ## The command executor: claims C21 and C22 -/

/-- Without a timer the thread of `execute_command` is not joinable, and the
`thread.join()` of line 62 throws. -/
theorem execute_command_not_positive (n : Nat) (threadStarts : Bool)
    (response : Int × String × String) :
    start_timer (-(n : Int)) threadStarts = some false ∧
      execute_command (-(n : Int)) threadStarts response = .system_error := by
  have hn : ¬ (-(n : Int)) > 0 := by omega
  constructor
  · simp only [start_timer, hn, if_false]
  · simp only [execute_command, start_timer, hn, if_false, flag_after_join, Bool.false_eq_true]

/-- No call of `execute_command` returns a normal result. -/
theorem execute_command_never_returns (timeout : Int) (threadStarts : Bool)
    (response : Int × String × String) (exitCode : Int) (out err : String) :
    execute_command timeout threadStarts response ≠ .returned exitCode out err := by
  unfold execute_command
  by_cases hpos : timeout > 0
  · cases threadStarts <;>
      simp [start_timer, hpos, flag_after_join, report_response]
  · simp [start_timer, hpos, flag_after_join]

/-- C21, the code at a failing input: with a timeout of 0 no timer is started
and no timeout exception is thrown, but the call does not reach its end: for
a process that was not interrupted and answers `(0, "out", "err")`, the
`thread.join()` of line 62 is made on a thread that was never started and
throws `std::system_error`, instead of the response being returned. The same
holds for every timeout that is zero or negative. -/
theorem execute_command_without_timeout :
    start_timer 0 true = some false ∧
      execute_command 0 true (0, "out", "err") = .system_error ∧
      execute_command 0 true (0, "out", "err") ≠ .returned 0 "out" "err" ∧
      ∀ (n : Nat) (threadStarts : Bool) (response : Int × String × String),
        execute_command (-(n : Int)) threadStarts response = .system_error :=
  ⟨by decide, by decide, by decide,
    fun n threadStarts response => (execute_command_not_positive n threadStarts response).2⟩

/-- C22, the code at a failing input: a process that completes on its own with
the exit code 2, the timeout flag not being set, is reported as interrupted,
because line 70 compares the exit code with the number of the signal, which is
2; and `execute_command` as a whole returns a normal result for no process at
all: with `timeout ≤ 0` the join throws, and with `timeout > 0` the flag is
always set at line 66. -/
theorem execute_command_exit_code_two :
    SIGINT = 2 ∧
      report_response false 0 (2, "out", "err") = .interrupt_error ∧
      report_response false 0 (1, "out", "err") = .returned 1 "out" "err" ∧
      execute_command 0 true (2, "out", "err") = .system_error ∧
      execute_command 5 true (2, "out", "err") = .timeout_exception 5 "out" "err" 2 ∧
      ∀ (timeout : Int) (threadStarts : Bool) (response : Int × String × String)
        (exitCode : Int) (out err : String),
        execute_command timeout threadStarts response ≠ .returned exitCode out err :=
  ⟨by decide, by decide, by decide, by decide, by decide, execute_command_never_returns⟩

/-! ## Termination of the suite resolver: claim C23 -/

/-- The function `do_search_testsuit` calls `search` on the parent directory
and nowhere else, and only when it found no configuration file and the path is
not its own parent. -/
theorem do_search_testsuit_congr (env : Env)
    (search1 search2 : FsPath → State → Except Failure (TestSuitSearchResult × State))
    (path : FsPath) (s : State)
    (h : dir_contains_test_suite env.fs path env.litConfig = none →
      path.parent_path ≠ path → search1 path.parent_path s = search2 path.parent_path s) :
    do_search_testsuit env search1 path s = do_search_testsuit env search2 path s := by
  cases hd : dir_contains_test_suite env.fs path env.litConfig with
  | some cfg => simp only [do_search_testsuit, hd]
  | none =>
    by_cases hp : path.parent_path = path
    · simp only [do_search_testsuit, hd, hp, if_true]
    · simp only [do_search_testsuit, hd, hp, if_false, h hd hp]

theorem FsPath.parent_path_length (p : FsPath) (h : p.parent_path ≠ p) :
    p.parent_path.comps.length + 1 = p.comps.length := by
  have hne : p.comps ≠ [] := fun e => h (FsPath.parent_path_eq_self p e)
  have hpos : 0 < p.comps.length := List.length_pos.mpr hne
  simp only [FsPath.parent_path, List.length_dropLast]
  omega

/-- Any two fuels above the number of components of the path give the same
result. -/
theorem search_testsuit_fuel_agree (env : Env) :
    ∀ (fuel1 fuel2 : Nat) (path : FsPath) (s : State),
      path.comps.length < fuel1 → path.comps.length < fuel2 →
      search_testsuit_fuel env fuel1 path s = search_testsuit_fuel env fuel2 path s := by
  intro fuel1
  induction fuel1 with
  | zero => intro fuel2 path s h; omega
  | succ n ih =>
    intro fuel2 path s h1 h2
    cases fuel2 with
    | zero => omega
    | succ m =>
      cases hk : env.fs.canonical path with
      | none => simp only [search_testsuit_fuel, hk]
      | some k =>
        cases hf : cache_find s.cache k with
        | some r =>
          rw [search_testsuit_fuel_cached env n path k s r hk hf,
            search_testsuit_fuel_cached env m path k s r hk hf]
        | none =>
          rw [search_testsuit_fuel_uncached env n path k s hk hf,
            search_testsuit_fuel_uncached env m path k s hk hf,
            do_search_testsuit_congr env (search_testsuit_fuel env n)
              (search_testsuit_fuel env m) path s
              (fun _ hp => ih m path.parent_path s
                (by have := FsPath.parent_path_length path hp; omega)
                (by have := FsPath.parent_path_length path hp; omega))]

/-- C23: `search_testsuit` terminates for every path. The recursion never runs
out of the steps allowed to it, one more than the path has components, and
allowing more steps changes nothing. Each call of `do_search_testsuit` makes
its one recursive call on the parent directory, which has one component less,
and makes none when the directory contains a configuration file or when the
path is its own parent, the filesystem root, where a root without a
configuration file yields no suite and an empty list. -/
theorem search_testsuit_terminates (env : Env) :
    (∀ (path : FsPath) (s : State), search_testsuit env path s ≠ .error .fuel) ∧
    (∀ (fuel : Nat) (path : FsPath) (s : State), path.comps.length < fuel →
      search_testsuit_fuel env fuel path s = search_testsuit env path s) ∧
    (∀ (search1 search2 : FsPath → State → Except Failure (TestSuitSearchResult × State))
        (path : FsPath) (s : State),
      search1 path.parent_path s = search2 path.parent_path s →
      do_search_testsuit env search1 path s = do_search_testsuit env search2 path s) ∧
    (∀ (path : FsPath), path.parent_path ≠ path →
      path.parent_path.comps.length + 1 = path.comps.length) ∧
    (∀ (search1 search2 : FsPath → State → Except Failure (TestSuitSearchResult × State))
        (path : FsPath) (s : State),
      (dir_contains_test_suite env.fs path env.litConfig).isSome = true →
      do_search_testsuit env search1 path s = do_search_testsuit env search2 path s) ∧
    (∀ (search : FsPath → State → Except Failure (TestSuitSearchResult × State))
        (path : FsPath) (s : State),
      path.parent_path = path →
      dir_contains_test_suite env.fs path env.litConfig = none →
      do_search_testsuit env search path s = .ok ((none, []), s)) := by
  refine ⟨fun path s => search_testsuit_fuel_sufficient env _ path s (Nat.lt_succ_self _),
    fun fuel path s h => search_testsuit_fuel_agree env fuel _ path s h (Nat.lt_succ_self _),
    fun search1 search2 path s h =>
      do_search_testsuit_congr env search1 search2 path s (fun _ _ => h),
    FsPath.parent_path_length, ?_, ?_⟩
  · intro search1 search2 path s hcfg
    exact do_search_testsuit_congr env search1 search2 path s
      (fun hn => by rw [hn] at hcfg; cases hcfg)
  · intro search path s hp hn
    simp only [do_search_testsuit, hn, hp, if_true]

/-- Witness of C23: in `no_config_env` the walk from `/a` ends at the root,
with any number of steps above the one component of the path, and the root
yields no suite whatever the recursive function is. -/
theorem search_testsuit_terminates_witness :
    search_testsuit_fuel no_config_env 7 (abs_path ["a"]) init_state =
        search_testsuit no_config_env (abs_path ["a"]) init_state ∧
      do_search_testsuit no_config_env (fun _ _ => .error .fuel) (abs_path []) init_state =
        .ok ((none, []), init_state) :=
  ⟨(search_testsuit_terminates no_config_env).2.1 7 (abs_path ["a"]) init_state (by decide),
    (search_testsuit_terminates no_config_env).2.2.2.2.2 (fun _ _ => .error .fuel) (abs_path [])
      init_state (by decide) (by decide)⟩

/-! ## Suffixes: claim C24 -/

theorem chars_start_with_append (str searchStr : List Char)
    (h : chars_start_with str searchStr = true) : ∃ t, str = searchStr ++ t := by
  induction searchStr generalizing str with
  | nil => exact ⟨str, rfl⟩
  | cons d ds ih =>
    cases str with
    | nil => simp [chars_start_with] at h
    | cons c cs =>
      simp only [chars_start_with, Bool.and_eq_true, decide_eq_true_eq] at h
      obtain ⟨t, ht⟩ := ih cs h.2
      exact ⟨t, by rw [h.1, ht]; rfl⟩

theorem string_find_some (str searchStr : List Char) :
    ∀ i : Nat, string_find str searchStr = some i →
      ∃ t, str.drop i = searchStr ++ t := by
  induction str with
  | nil =>
    intro i h
    simp only [string_find] at h
    cases hs : searchStr with
    | nil => exact ⟨[], by simp⟩
    | cons c cs => simp [hs] at h
  | cons c cs ih =>
    intro i h
    simp only [string_find] at h
    by_cases hst : chars_start_with (c :: cs) searchStr = true
    · simp only [hst, if_true] at h
      injection h with h
      subst h
      exact chars_start_with_append _ _ hst
    · simp only [hst, if_false, Option.map_eq_some', Bool.false_eq_true] at h
      obtain ⟨j, hj, hi⟩ := h
      subst hi
      obtain ⟨t, ht⟩ := ih j hj
      exact ⟨t, by simpa using ht⟩

/-- One half of the claim holds: when `string_endswith` answers true,
`searchStr` is a suffix of `str`. -/
theorem string_endswith_sound (str searchStr : String)
    (h : string_endswith str searchStr = true) :
    ∃ front : List Char, str.data = front ++ searchStr.data := by
  unfold string_endswith at h
  by_cases hlt : str.data.length < searchStr.data.length
  · simp only [hlt, if_true] at h
    cases h
  · by_cases he : searchStr.data.isEmpty = true
    · have : searchStr.data = [] := by simpa using he
      exact ⟨str.data, by simp [this]⟩
    · simp only [hlt, he, if_false, decide_eq_true_eq, Bool.false_eq_true] at h
      obtain ⟨t, ht⟩ := string_find_some str.data searchStr.data _ h.symm
      have hlen := congrArg List.length ht
      simp only [List.length_drop, List.length_append] at hlen
      have ht0 : t = [] := by
        apply List.eq_nil_of_length_eq_zero
        omega
      rw [ht0, List.append_nil] at ht
      have hsplit :=
        (List.take_append_drop (str.data.length - searchStr.data.length) str.data).symm
      rw [ht] at hsplit
      exact ⟨_, hsplit⟩

/-- C24, the code at a failing input: `.txt` is a suffix of `a.txt.txt`, but
it also occurs earlier, and `string_endswith` answers false, because `find`
gives the position 1 of the first occurrence and not the position 5 of the
last one; so `check_file_have_ext` rejects the file name `a.txt.txt` for the
suffix `.txt`. Without an earlier occurrence the answer is the right one. -/
theorem string_endswith_earlier_occurrence :
    "a.txt.txt".data = "a.txt".data ++ ".txt".data ∧
      string_find "a.txt.txt".data ".txt".data = some 1 ∧
      string_endswith "a.txt.txt" ".txt" = false ∧
      check_file_have_ext "a.txt.txt" [".txt"] = false ∧
      string_endswith "a.txt" ".txt" = true ∧
      string_endswith "a.txt" ".cfg" = false :=
  ⟨by decide, by decide, by decide, by decide, by decide, by decide⟩

end Polar.Lit
